import Mathlib

/-!
Shallow embedding of the pixel-art-algorithms library (palette generation via
median cut, direct palette application, Bayer ordered dithering and
Floyd-Steinberg error-diffusion dithering), together with theorems checking
the natural-language specification against the code.

Modelling conventions:
* JS numbers are modelled as rationals; the arithmetic in the library
  (sums, differences, products, divisions by powers of two, comparisons)
  is exact on the values the claims exercise.
* A flat RGBA Uint8ClampedArray buffer is modelled as a list of RGBA
  quadruples (the data model fixes the byte length to a multiple of 4).
* An assignment to a Uint8ClampedArray cell clamps into [0,255] and rounds,
  halves to the nearest even integer; Math.round rounds halves up.
* Typed palettes (a list of r,g,b triples) make the ad-hoc arity checks of
  the source vanish: every entry is well formed by construction.
-/

namespace PixelArt

/-- An RGB color triple, as stored in a palette. -/
structure Color where
  r : ℚ
  g : ℚ
  b : ℚ
deriving Repr, DecidableEq

/-- One RGBA pixel of a flat pixel buffer. -/
structure RGBA where
  r : ℚ
  g : ℚ
  b : ℚ
  a : ℚ
deriving Repr, DecidableEq

/-- The Math.max(0, Math.min(255, v)) clamping pattern of the source. -/
def clamp255 (q : ℚ) : ℚ := max 0 (min 255 q)

/-- Math.round: round half toward positive infinity. -/
def jsRound (q : ℚ) : ℤ := ⌊q + 1/2⌋

/-- The value stored by an assignment to a Uint8ClampedArray cell: round to
the nearest integer (halves to the nearest even integer) and clamp the
result into [0,255]. -/
def u8store (q : ℚ) : ℚ :=
  let f : ℤ := ⌊q⌋
  let n : ℤ :=
    if q - f < 1/2 then f
    else if 1/2 < q - f then f + 1
    else if Even f then f else f + 1
  ((max 0 (min 255 n) : ℤ) : ℚ)

/-- A rational that is the exact value of one byte: an integer in [0,255]. -/
def IsByteQ (q : ℚ) : Prop := (⌊q⌋ : ℚ) = q ∧ 0 ≤ q ∧ q ≤ 255

instance (q : ℚ) : Decidable (IsByteQ q) := by
  unfold IsByteQ; infer_instance

/-- A palette entry whose three channels are byte values. -/
def ByteColor (c : Color) : Prop := IsByteQ c.r ∧ IsByteQ c.g ∧ IsByteQ c.b

instance (c : Color) : Decidable (ByteColor c) := by
  unfold ByteColor; infer_instance

/-! ### utils/helpers.js -/

/-- Squared Euclidean distance between two RGB colors
(function colorDistanceSquared of utils/helpers.js). -/
def colorDistanceSquared (r1 g1 b1 r2 g2 b2 : ℚ) : ℚ :=
  let dr := r1 - r2
  let dg := g1 - g2
  let db := b1 - b2
  dr * dr + dg * dg + db * db

/-- Distance from a probe color to a palette entry, an abbreviation used in
statements. -/
def distTo (r g b : ℚ) (c : Color) : ℚ :=
  colorDistanceSquared r g b c.r c.g c.b

/-- The scanning loop of findClosestPaletteColor: walk the remaining palette
entries, replacing the current best only on a strictly smaller distance. -/
def fcGo (r g b : ℚ) : Color → ℚ → List Color → Color
  | closest, _, [] => closest
  | closest, minD, c :: rest =>
      let d := colorDistanceSquared r g b c.r c.g c.b
      if d < minD then fcGo r g b c d rest else fcGo r g b closest minD rest

/-- findClosestPaletteColor of utils/helpers.js.  On an empty palette the
source logs an error and returns the probe color itself; with a typed
palette the malformed-entry branches of the source are unreachable. -/
def findClosestPaletteColor (r g b : ℚ) (palette : List Color) : Color :=
  match palette with
  | [] => ⟨r, g, b⟩
  | c0 :: rest => fcGo r g b c0 (colorDistanceSquared r g b c0.r c0.g c0.b) rest

/-! ### core/palette.js : applyPalette -/

/-- The per-pixel body of the applyPalette loop. -/
def applyPalettePixel (palette : List Color) (px : RGBA) : RGBA :=
  if px.a = 0 then ⟨0, 0, 0, 0⟩
  else
    let c := findClosestPaletteColor px.r px.g px.b palette
    ⟨u8store c.r, u8store c.g, u8store c.b, u8store px.a⟩

/-- applyPalette of core/palette.js.  An empty palette logs a warning and
returns the input buffer unchanged. -/
def applyPalette (pixels : List RGBA) (palette : List Color) : List RGBA :=
  if palette = [] then pixels
  else pixels.map (applyPalettePixel palette)

/-! ### dithering/bayer.js -/

/-- The 2x2 member of BAYER_MATRICES. -/
def bayerMatrix2x2 : List (List ℚ) := [[0, 2], [3, 1]]

/-- The 4x4 member of BAYER_MATRICES. -/
def bayerMatrix4x4 : List (List ℚ) :=
  [[0,  8,  2, 10],
   [12, 4, 14,  6],
   [3, 11,  1,  9],
   [15, 7, 13,  5]]

/-- The 8x8 member of BAYER_MATRICES. -/
def bayerMatrix8x8 : List (List ℚ) :=
  [[ 0, 32,  8, 40,  2, 34, 10, 42],
   [48, 16, 56, 24, 50, 18, 58, 26],
   [12, 44,  4, 36, 14, 46,  6, 38],
   [60, 28, 52, 20, 62, 30, 54, 22],
   [ 3, 35, 11, 43,  1, 33,  9, 41],
   [51, 19, 59, 27, 49, 17, 57, 25],
   [15, 47,  7, 39, 13, 45,  5, 37],
   [63, 31, 55, 23, 61, 29, 53, 21]]

/-- One row of a row-major traversal: x = 0 .. w-1 at a fixed y. -/
def buildRow (f : ℕ → ℕ → α) (w y : ℕ) : List α :=
  (List.range w).map fun x => f x y

/-- Row-major traversal of a w-by-h grid (y outer, x inner), collecting the
cell outputs in the order the source loops write them. -/
def buildGrid (f : ℕ → ℕ → α) (w : ℕ) : ℕ → List α
  | 0 => []
  | h + 1 => buildGrid f w h ++ buildRow f w h

/-- The per-pixel body of the strength-zero branch of applyBayerDithering
(direct nearest-color mapping, no perturbation). -/
def bayerFlatPixel (palette : List Color) (px : RGBA) : RGBA :=
  if px.a = 0 then ⟨0, 0, 0, 0⟩
  else
    let c := findClosestPaletteColor px.r px.g px.b palette
    ⟨u8store c.r, u8store c.g, u8store c.b, u8store px.a⟩

/-- applyBayerDithering of dithering/bayer.js.  The strength is clamped into
[0,100]; strength zero short-circuits to direct palette mapping; otherwise a
strength band picks the threshold matrix and each opaque pixel is offset by
the centered, scaled matrix value before matching.  Out-of-grid reads of the
source (impossible when the buffer length is width*height) are modelled by a
zero default. -/
def applyBayerDithering (pixels : List RGBA) (width height : ℕ)
    (palette : List Color) (strengthPercent : ℚ) : List RGBA :=
  if palette = [] then pixels
  else if pixels = [] then pixels
  else
    let s := max 0 (min 100 strengthPercent)
    if s = 0 then pixels.map (bayerFlatPixel palette)
    else
      let strengthFactor := s / 100
      let msize : ℕ := if s ≤ 333/10 then 2 else if s ≤ 666/10 then 4 else 8
      let M : List (List ℚ) :=
        if s ≤ 333/10 then bayerMatrix2x2
        else if s ≤ 666/10 then bayerMatrix4x4 else bayerMatrix8x8
      let norm : ℚ := 1 / (msize * msize)
      let maxOff : ℚ := strengthFactor * (msize * msize) / 2
      buildGrid (fun x y =>
        let px := pixels.getD (y * width + x) ⟨0, 0, 0, 0⟩
        if px.a = 0 then (⟨0, 0, 0, 0⟩ : RGBA)
        else
          let bv := (M.getD (y % msize) []).getD (x % msize) 0
          let adj := (bv * norm - 1/2) * maxOff
          let c := findClosestPaletteColor (clamp255 (px.r + adj))
            (clamp255 (px.g + adj)) (clamp255 (px.b + adj)) palette
          ⟨u8store c.r, u8store c.g, u8store c.b, u8store px.a⟩) width height

/-! ### dithering/floydSteinberg.js -/

/-- Read the flat channel stream of a buffer: channel k of the stream is
channel k mod 4 of pixel k / 4 (the copy loop filling the Float32Array
scratch). -/
def flatten (pixels : List RGBA) : ℕ → ℚ := fun k =>
  let px := pixels.getD (k / 4) ⟨0, 0, 0, 0⟩
  match k % 4 with
  | 0 => px.r
  | 1 => px.g
  | 2 => px.b
  | _ => px.a

/-- A compound addition (+=) at one cell of the scratch buffer. -/
def addAt (f : ℕ → ℚ) (j : ℕ) (v : ℚ) : ℕ → ℚ :=
  fun k => if k = j then f k + v else f k

/-- A store at one cell of the output buffer (the stored value is produced by
the caller, already passed through u8store where the source writes to the
Uint8ClampedArray). -/
def setAt (f : ℕ → ℚ) (j : ℕ) (v : ℚ) : ℕ → ℚ :=
  fun k => if k = j then v else f k

/-- The state threaded through the Floyd-Steinberg raster scan: the
real-valued scratch buffer d and the integral output buffer. -/
structure FSState where
  d : ℕ → ℚ
  out : ℕ → ℚ

/-- The body of the Floyd-Steinberg double loop at pixel (x, y): transparent
pixels write four zeros and propagate nothing; otherwise the accumulated
channels are clamped, matched against the palette, written out, and the
quantization error is distributed to the four in-bounds neighbors. -/
def fsStep (width height : ℕ) (palette : List Color) (st : FSState)
    (xy : ℕ × ℕ) : FSState :=
  let x := xy.1
  let y := xy.2
  let i := (y * width + x) * 4
  if st.d (i + 3) = 0 then
    { st with
      out := setAt (setAt (setAt (setAt st.out i 0) (i+1) 0) (i+2) 0) (i+3) 0 }
  else
    let oldR := clamp255 (st.d i)
    let oldG := clamp255 (st.d (i+1))
    let oldB := clamp255 (st.d (i+2))
    let oldA := st.d (i+3)
    let c := findClosestPaletteColor oldR oldG oldB palette
    let out1 := setAt (setAt (setAt (setAt st.out i (u8store c.r))
      (i+1) (u8store c.g)) (i+2) (u8store c.b)) (i+3) (u8store ((jsRound oldA : ℤ) : ℚ))
    let errR := oldR - c.r
    let errG := oldG - c.g
    let errB := oldB - c.b
    let d1 := if x + 1 < width then
        addAt (addAt (addAt st.d (i+4) (errR * 7 / 16)) (i+5) (errG * 7 / 16))
          (i+6) (errB * 7 / 16)
      else st.d
    let d2 := if 1 ≤ x ∧ y + 1 < height then
        addAt (addAt (addAt d1 (i + width*4 - 4) (errR * 3 / 16))
          (i + width*4 - 3) (errG * 3 / 16)) (i + width*4 - 2) (errB * 3 / 16)
      else d1
    let d3 := if y + 1 < height then
        addAt (addAt (addAt d2 (i + width*4) (errR * 5 / 16))
          (i + width*4 + 1) (errG * 5 / 16)) (i + width*4 + 2) (errB * 5 / 16)
      else d2
    let d4 := if x + 1 < width ∧ y + 1 < height then
        addAt (addAt (addAt d3 (i + width*4 + 4) (errR * 1 / 16))
          (i + width*4 + 5) (errG * 1 / 16)) (i + width*4 + 6) (errB * 1 / 16)
      else d3
    ⟨d4, out1⟩

/-- applyFloydSteinbergDithering of dithering/floydSteinberg.js: copy the
input into a real-valued scratch, scan the grid in row-major order, and read
the output buffer (zero-initialized, like a fresh Uint8ClampedArray) back at
the input's length. -/
def applyFloydSteinbergDithering (pixels : List RGBA) (width height : ℕ)
    (palette : List Color) : List RGBA :=
  if palette = [] then pixels
  else if pixels = [] then pixels
  else
    let final := (buildGrid (fun x y => (x, y)) width height).foldl
      (fsStep width height palette) ⟨flatten pixels, fun _ => 0⟩
    (List.range pixels.length).map fun k =>
      ⟨final.out (4*k), final.out (4*k+1), final.out (4*k+2), final.out (4*k+3)⟩

/-! ### core/palette.js : generatePalette -/

/-- The candidate-collection loop of generatePalette: keep the color of every
pixel whose alpha exceeds 128, in buffer order. -/
def collectOpaquePixels (pixels : List RGBA) : List Color :=
  (pixels.filter (fun px => 128 < px.a)).map fun px => (⟨px.r, px.g, px.b⟩ : Color)

/-- The synthetic grayscale ramp returned when no opaque pixel exists.  The
source computes shade = Math.floor(i * (255 / ((numColors - 1) || 1))); the
division is modelled exactly. -/
def fallbackPalette (numColors : ℕ) : List Color :=
  (List.range numColors).map fun (i : ℕ) =>
    let denom : ℚ := if (numColors : ℚ) - 1 = 0 then 1 else (numColors : ℚ) - 1
    let shade : ℤ := ⌊(i : ℚ) * (255 / denom)⌋
    ⟨(shade : ℚ), (shade : ℚ), (shade : ℚ)⟩

/-- The subsampling bound of generatePalette. -/
def MAX_PIXELS_FOR_PALETTE_GENERATION : ℕ := 65536

/-- Stride through a list with the given step, collecting the elements at
indices 0, step, 2*step, ... (the subsampling loop of generatePalette). -/
def everyNth : List Color → ℕ → List Color
  | [], _ => []
  | c :: rest, step => c :: everyNth (rest.drop (step - 1)) step
termination_by l _ => l.length
decreasing_by
  simp only [List.length_drop, List.length_cons]
  omega

/-- Running minima and maxima of the three channels over one bucket, with the
source's initial values minR = minG = minB = 255 and maxR = maxG = maxB = 0. -/
structure MinMaxState where
  minR : ℚ
  maxR : ℚ
  minG : ℚ
  maxG : ℚ
  minB : ℚ
  maxB : ℚ

/-- The forEach loop computing per-channel minima and maxima of a bucket. -/
def bucketRangeData (bucket : List Color) : MinMaxState :=
  bucket.foldl (fun st p =>
    ⟨min st.minR p.r, max st.maxR p.r,
     min st.minG p.g, max st.maxG p.g,
     min st.minB p.b, max st.maxB p.b⟩)
    ⟨255, 0, 255, 0, 255, 0⟩

/-- The single-channel range of a bucket in dimension 0, 1 or 2 (R, G, B),
as computed by the split-selection loop. -/
def chRange (bucket : List Color) (dim : ℤ) : ℚ :=
  let m := bucketRangeData bucket
  if dim = 0 then m.maxR - m.minR
  else if dim = 1 then m.maxG - m.minG
  else m.maxB - m.minB

/-- Component of a color along a split dimension (p[splitDimension]). -/
def chComp (c : Color) (dim : ℤ) : ℚ :=
  if dim = 0 then c.r else if dim = 1 then c.g else c.b

/-- The running best split of the selection loop: bucket index, range and
dimension, all initialized to -1. -/
structure SplitChoice where
  bestBucketIndex : ℤ
  maxRange : ℚ
  splitDimension : ℤ
deriving Repr, DecidableEq

/-- The body of the split-selection loop for the bucket at index i: skip
buckets with at most one element, then let each of the three channel ranges
replace the running best exactly when strictly greater. -/
def bucketStep (acc : SplitChoice) (i : ℕ) (b : List Color) : SplitChoice :=
  if b.length ≤ 1 then acc
  else
    let m := bucketRangeData b
    let dR := m.maxR - m.minR
    let dG := m.maxG - m.minG
    let dB := m.maxB - m.minB
    let acc1 := if acc.maxRange < dR then (⟨(i : ℤ), dR, 0⟩ : SplitChoice) else acc
    let acc2 := if acc1.maxRange < dG then (⟨(i : ℤ), dG, 1⟩ : SplitChoice) else acc1
    if acc2.maxRange < dB then (⟨(i : ℤ), dB, 2⟩ : SplitChoice) else acc2

/-- The indexed for-loop over all buckets running bucketStep. -/
def chooseSplitGo (acc : SplitChoice) (i : ℕ) : List (List Color) → SplitChoice
  | [] => acc
  | b :: rest => chooseSplitGo (bucketStep acc i b) (i + 1) rest

/-- The full split-selection pass of the median-cut loop. -/
def chooseSplit (buckets : List (List Color)) : SplitChoice :=
  chooseSplitGo ⟨-1, -1, -1⟩ 0 buckets

/-- One iteration of the median-cut while loop: select the bucket and channel
with the greatest range; stop (none) when nothing was selected or the best
range is zero; otherwise sort the chosen bucket by the winning channel
(Array.prototype.sort with comparator (a, b) => a[dim] - b[dim], modelled by
a stable insertion sort), split it at floor(length/2), splice the two halves
in its place and drop empty buckets. -/
def medianCutStep (buckets : List (List Color)) : Option (List (List Color)) :=
  let choice := chooseSplit buckets
  if choice.bestBucketIndex = -1 ∨ choice.maxRange = 0 then none
  else
    let idx := choice.bestBucketIndex.toNat
    let bucketToSplit := buckets.getD idx []
    let sorted := List.insertionSort
      (fun a b => chComp a choice.splitDimension ≤ chComp b choice.splitDimension)
      bucketToSplit
    let medianIndex := sorted.length / 2
    let newBucket1 := sorted.take medianIndex
    let newBucket2 := sorted.drop medianIndex
    let spliced := buckets.take idx ++ [newBucket1, newBucket2] ++ buckets.drop (idx + 1)
    some (spliced.filter fun b => 0 < b.length)

/-- The median-cut while loop, with explicit fuel.  Each iteration that
recurses raises the bucket count by one, so any fuel of at least numColors
reaches the loop's own exit condition first. -/
def medianCutLoop : ℕ → ℕ → List (List Color) → List (List Color)
  | 0, _, buckets => buckets
  | fuel + 1, numColors, buckets =>
    if buckets.length < numColors ∧ buckets.any (fun b => 1 < b.length) then
      match medianCutStep buckets with
      | none => buckets
      | some buckets2 => medianCutLoop fuel numColors buckets2
    else buckets

/-- Average the colors of one final bucket (Math.round on each channel mean);
a missing or empty bucket yields black. -/
def averageBucket (bucket : List Color) : Color :=
  if bucket.length = 0 then ⟨0, 0, 0⟩
  else
    let s := bucket.foldl
      (fun (acc : ℚ × ℚ × ℚ) p => (acc.1 + p.r, acc.2.1 + p.g, acc.2.2 + p.b))
      (0, 0, 0)
    ⟨((jsRound (s.1 / bucket.length) : ℤ) : ℚ),
     ((jsRound (s.2.1 / bucket.length) : ℤ) : ℚ),
     ((jsRound (s.2.2 / bucket.length) : ℤ) : ℚ)⟩

/-- The first size-normalization loop: while the palette is shorter than
numColors and non-empty, append a copy of its last entry. -/
def padWithLast (numColors : ℕ) (p : List Color) : List Color :=
  if h : p.length < numColors ∧ p ≠ [] then
    padWithLast numColors (p ++ [p.getLast h.2])
  else p
termination_by numColors - p.length
decreasing_by
  simp only [List.length_append, List.length_cons, List.length_nil]
  omega

/-- The defensive truncation: drop entries past numColors when over. -/
def truncateTo (numColors : ℕ) (p : List Color) : List Color :=
  if numColors < p.length then p.take numColors else p

/-- The second size-normalization loop: pad with black up to numColors. -/
def padWithBlack (numColors : ℕ) (p : List Color) : List Color :=
  if p.length < numColors then padWithBlack numColors (p ++ [⟨0, 0, 0⟩]) else p
termination_by numColors - p.length
decreasing_by
  simp only [List.length_append, List.length_cons, List.length_nil]
  omega

/-- generatePalette of core/palette.js: clamp numColors into [1,256]
(fractional input floored), collect candidates, fall back to a grayscale ramp
when none survive, subsample very large candidate sets, run median cut, and
normalize the palette size to exactly numColors. -/
def generatePalette (pixelData : List RGBA) (numColorsRaw : ℚ) : List Color :=
  let numColors : ℕ := (max 1 (min 256 ⌊numColorsRaw⌋)).toNat
  let allPixels := collectOpaquePixels pixelData
  if allPixels = [] then fallbackPalette numColors
  else
    let pixelsToProcess :=
      if MAX_PIXELS_FOR_PALETTE_GENERATION < allPixels.length then
        let step := max 1 (allPixels.length / MAX_PIXELS_FOR_PALETTE_GENERATION)
        (everyNth allPixels step).take MAX_PIXELS_FOR_PALETTE_GENERATION
      else allPixels
    let pixelsToProcess2 :=
      if pixelsToProcess = [] then [allPixels.getD 0 ⟨0, 0, 0⟩] else pixelsToProcess
    let buckets := medianCutLoop numColors numColors [pixelsToProcess2]
    let generated := buckets.map averageBucket
    padWithBlack numColors (truncateTo numColors (padWithLast numColors generated))

example : findClosestPaletteColor 128 128 128 [⟨0,0,0⟩, ⟨255,255,255⟩] = ⟨255,255,255⟩ := by
  norm_num [findClosestPaletteColor, fcGo, colorDistanceSquared]

example : applyPalette [⟨128,128,128,255⟩] [⟨0,0,0⟩, ⟨255,255,255⟩]
    = [⟨255,255,255,255⟩] := by
  norm_num [applyPalette, applyPalettePixel, findClosestPaletteColor, fcGo,
    colorDistanceSquared, u8store, List.cons_ne_nil]

/-! ## Basic numeric helper lemmas -/

lemma u8store_of_byte {q : ℚ} (h : IsByteQ q) : u8store q = q := by
  obtain ⟨hfl, h0, h255⟩ := h
  have hsub : q - (⌊q⌋ : ℚ) < 1/2 := by rw [hfl]; norm_num
  have hf0 : (0 : ℤ) ≤ ⌊q⌋ := Int.floor_nonneg.mpr h0
  have hf255 : ⌊q⌋ ≤ 255 := by
    have h1 : ⌊q⌋ ≤ ⌊(255 : ℚ)⌋ := Int.floor_le_floor h255
    norm_num at h1
    exact h1
  show ((max (0 : ℤ) (min (255 : ℤ) (if q - (⌊q⌋ : ℚ) < 1/2 then ⌊q⌋
    else if 1/2 < q - (⌊q⌋ : ℚ) then ⌊q⌋ + 1
    else if Even ⌊q⌋ then ⌊q⌋ else ⌊q⌋ + 1)) : ℤ) : ℚ) = q
  rw [if_pos hsub, min_eq_right hf255, max_eq_right hf0]
  exact hfl

lemma jsRound_of_byte {q : ℚ} (h : IsByteQ q) : ((jsRound q : ℤ) : ℚ) = q := by
  obtain ⟨hfl, _, _⟩ := h
  have h1 : jsRound q = ⌊q⌋ := by
    unfold jsRound
    conv_lhs => rw [← hfl]
    rw [add_comm, Int.floor_add_int]
    norm_num
  rw [h1, hfl]

lemma isByteQ_u8store_of_byte {q : ℚ} (h : IsByteQ q) : IsByteQ (u8store q) := by
  rw [u8store_of_byte h]; exact h

lemma colorDistanceSquared_nonneg (r1 g1 b1 r2 g2 b2 : ℚ) :
    0 ≤ colorDistanceSquared r1 g1 b1 r2 g2 b2 :=
  add_nonneg (add_nonneg (mul_self_nonneg _) (mul_self_nonneg _)) (mul_self_nonneg _)

lemma colorDistanceSquared_self (r g b : ℚ) :
    colorDistanceSquared r g b r g b = 0 := by
  unfold colorDistanceSquared; ring

lemma color_eq_of_dist_zero {r g b : ℚ} {c : Color}
    (h : colorDistanceSquared r g b c.r c.g c.b = 0) : c = ⟨r, g, b⟩ := by
  obtain ⟨cr, cg, cb⟩ := c
  have h0 : (r - cr) * (r - cr) + (g - cg) * (g - cg) + (b - cb) * (b - cb) = 0 := h
  have e1 : (r - cr) * (r - cr) = 0 := by
    nlinarith [mul_self_nonneg (r - cr), mul_self_nonneg (g - cg), mul_self_nonneg (b - cb)]
  have e2 : (g - cg) * (g - cg) = 0 := by
    nlinarith [mul_self_nonneg (r - cr), mul_self_nonneg (g - cg), mul_self_nonneg (b - cb)]
  have e3 : (b - cb) * (b - cb) = 0 := by
    nlinarith [mul_self_nonneg (r - cr), mul_self_nonneg (g - cg), mul_self_nonneg (b - cb)]
  have hr : cr = r := by have := mul_self_eq_zero.mp e1; linarith
  have hg : cg = g := by have := mul_self_eq_zero.mp e2; linarith
  have hb : cb = b := by have := mul_self_eq_zero.mp e3; linarith
  simp [hr, hg, hb]

/-! ## Nearest-color matcher: characterization -/

/-- The result is the first entry of the list attaining the minimal squared
distance to the probe: it occurs at some index i, no entry is strictly
closer, and every entry before index i is strictly farther. -/
def IsFirstMin (r g b : ℚ) (l : List Color) (res : Color) : Prop :=
  ∃ i : ℕ, ∃ hi : i < l.length,
    l.get ⟨i, hi⟩ = res ∧
    (∀ c ∈ l, distTo r g b res ≤ distTo r g b c) ∧
    ∀ j (hj : j < l.length), j < i → distTo r g b res < distTo r g b (l.get ⟨j, hj⟩)

lemma fcGo_firstMin (r g b : ℚ) :
    ∀ (rest : List Color) (best : Color),
      IsFirstMin r g b (best :: rest) (fcGo r g b best (distTo r g b best) rest) := by
  intro rest
  induction rest with
  | nil =>
    intro best
    exact ⟨0, by simp, by simp [fcGo], by simp [fcGo], by simp⟩
  | cons c rest ih =>
    intro best
    show IsFirstMin r g b _ (fcGo r g b best (distTo r g b best) (c :: rest))
    rw [fcGo]
    by_cases hlt : colorDistanceSquared r g b c.r c.g c.b < distTo r g b best
    · rw [if_pos hlt]
      obtain ⟨i, hi, hget, hmin, hfirst⟩ := ih c
      have hres : fcGo r g b c (colorDistanceSquared r g b c.r c.g c.b) rest
          = fcGo r g b c (distTo r g b c) rest := rfl
      rw [hres]
      refine ⟨i + 1, by simpa using Nat.succ_lt_succ hi, ?_, ?_, ?_⟩
      · simpa using hget
      · intro e he
        rcases List.mem_cons.mp he with heq | he'
        · rw [heq]
          exact le_of_lt (lt_of_le_of_lt (hmin c (List.mem_cons_self _ _)) hlt)
        · exact hmin e he'
      · intro j hj hji
        match j with
        | 0 =>
          have hle : distTo r g b _ ≤ distTo r g b c := hmin c (List.mem_cons_self _ _)
          simpa using lt_of_le_of_lt hle hlt
        | j' + 1 =>
          exact hfirst j' (by simpa using Nat.lt_of_succ_lt_succ hj)
            (Nat.lt_of_succ_lt_succ hji)
    · rw [if_neg hlt]
      push_neg at hlt
      obtain ⟨i, hi, hget, hmin, hfirst⟩ := ih best
      match i, hi with
      | 0, hi =>
        refine ⟨0, by simp, ?_, ?_, by simp⟩
        · simpa using hget
        · intro e he
          rcases List.mem_cons.mp he with heq | he'
          · rw [heq]; exact hmin best (List.mem_cons_self _ _)
          rcases List.mem_cons.mp he' with heq | he''
          · rw [heq]; exact le_trans (hmin best (List.mem_cons_self _ _)) hlt
          · exact hmin e (List.mem_cons.mpr (Or.inr he''))
      | i' + 1, hi =>
        have hbeststrict : distTo r g b (fcGo r g b best (distTo r g b best) rest)
            < distTo r g b best := by
          have := hfirst 0 (by simp) (Nat.succ_pos _)
          simpa using this
        refine ⟨i' + 2, by simpa using Nat.succ_lt_succ hi, ?_, ?_, ?_⟩
        · simpa using hget
        · intro e he
          rcases List.mem_cons.mp he with heq | he'
          · rw [heq]; exact hmin best (List.mem_cons_self _ _)
          rcases List.mem_cons.mp he' with heq | he''
          · rw [heq]; exact le_trans (hmin best (List.mem_cons_self _ _)) hlt
          · exact hmin e (List.mem_cons.mpr (Or.inr he''))
        · intro j hj hji
          match j, hj with
          | 0, _ => simpa using hbeststrict
          | 1, _ => simpa using lt_of_lt_of_le hbeststrict hlt
          | j' + 2, hj =>
            have := hfirst (j' + 1) (by simpa using Nat.lt_of_succ_lt_succ hj)
              (Nat.lt_of_succ_lt_succ hji)
            simpa using this

lemma findClosest_firstMin (r g b : ℚ) (palette : List Color) (hp : palette ≠ []) :
    IsFirstMin r g b palette (findClosestPaletteColor r g b palette) := by
  match palette, hp with
  | c0 :: rest, _ => exact fcGo_firstMin r g b rest c0

lemma findClosest_mem {r g b : ℚ} {palette : List Color} (hp : palette ≠ []) :
    findClosestPaletteColor r g b palette ∈ palette := by
  obtain ⟨i, hi, hget, -, -⟩ := findClosest_firstMin r g b palette hp
  exact hget ▸ List.get_mem _ _ _

lemma findClosest_min_le {r g b : ℚ} {palette : List Color} (hp : palette ≠ [])
    {c : Color} (hc : c ∈ palette) :
    distTo r g b (findClosestPaletteColor r g b palette) ≤ distTo r g b c := by
  obtain ⟨i, hi, -, hmin, -⟩ := findClosest_firstMin r g b palette hp
  exact hmin c hc

/-- If the probe color itself occurs in the palette, the matcher returns
exactly that color value. -/
lemma findClosest_of_probe_mem {r g b : ℚ} {palette : List Color}
    (hp : palette ≠ []) (hmem : (⟨r, g, b⟩ : Color) ∈ palette) :
    findClosestPaletteColor r g b palette = ⟨r, g, b⟩ := by
  have hle := findClosest_min_le (r := r) (g := g) (b := b) hp hmem
  have hself : distTo r g b (⟨r, g, b⟩ : Color) = 0 := colorDistanceSquared_self r g b
  rw [hself] at hle
  have h0 : distTo r g b (findClosestPaletteColor r g b palette) = 0 :=
    le_antisymm hle (colorDistanceSquared_nonneg _ _ _ _ _ _)
  exact color_eq_of_dist_zero h0

/-- C2: for every probe color and every non-empty (well-formed, typed)
palette, findClosestPaletteColor returns the entry at minimal squared
Euclidean distance, and on ties the entry with the smallest palette index. -/
theorem claim_C2_findClosest_first_min (r g b : ℚ) (palette : List Color)
    (hp : palette ≠ []) :
    IsFirstMin r g b palette (findClosestPaletteColor r g b palette) :=
  findClosest_firstMin r g b palette hp

theorem claim_C2_witness :
    ([⟨0,0,0⟩, ⟨255,255,255⟩] : List Color) ≠ [] ∧
      IsFirstMin 10 20 30 [⟨0,0,0⟩, ⟨255,255,255⟩]
        (findClosestPaletteColor 10 20 30 [⟨0,0,0⟩, ⟨255,255,255⟩]) :=
  ⟨by decide, claim_C2_findClosest_first_min 10 20 30 _ (by decide)⟩

/-! ## C3: Bayer dithering at strength zero equals applyPalette -/

lemma bayerFlatPixel_eq_applyPalettePixel (palette : List Color) (px : RGBA) :
    bayerFlatPixel palette px = applyPalettePixel palette px := rfl

/-- C3: applyBayerDithering with strength 0 produces exactly the same buffer
as applyPalette with the same palette, for every buffer, width, height and
palette. -/
theorem claim_C3_bayer_zero_eq_applyPalette (pixels : List RGBA) (w h : ℕ)
    (palette : List Color) :
    applyBayerDithering pixels w h palette 0 = applyPalette pixels palette := by
  unfold applyBayerDithering applyPalette
  by_cases hp : palette = []
  · rw [if_pos hp, if_pos hp]
  · rw [if_neg hp, if_neg hp]
    by_cases hpx : pixels = []
    · rw [if_pos hpx, hpx]
      simp
    · rw [if_neg hpx]
      have hs : (max 0 (min 100 (0 : ℚ))) = 0 := by norm_num
      rw [hs, if_pos rfl]
      exact List.map_congr_left fun px _ => bayerFlatPixel_eq_applyPalettePixel palette px

/-! ## C7: behavior on an empty palette -/

/-- C7 counterexample: at the concrete probe (10,20,30) the empty-palette
result of findClosestPaletteColor is identical to a genuine success on the
palette containing exactly that color, and both dithering functions return
the unmodified input buffer when the palette is empty; none of the three
functions produces a result a caller can programmatically distinguish from
success, refuting the claim that they signal a distinguishable
input-validation failure. -/
theorem claim_C7_counterexample :
    findClosestPaletteColor 10 20 30 [] =
        findClosestPaletteColor 10 20 30 [⟨10, 20, 30⟩] ∧
      applyBayerDithering [⟨9, 9, 9, 200⟩] 1 1 [] 50 = [⟨9, 9, 9, 200⟩] ∧
      applyFloydSteinbergDithering [⟨9, 9, 9, 200⟩] 1 1 [] = [⟨9, 9, 9, 200⟩] :=
  ⟨rfl, rfl, rfl⟩

/-- C7 amended: on an empty palette, findClosestPaletteColor falls back to
returning the probe color itself, and applyBayerDithering and
applyFloydSteinbergDithering fall back to returning the input buffer
unchanged (logging aside, a silent fallback indistinguishable from an
ordinary result); no distinguishable error value is produced. -/
theorem claim_C7_amended :
    (∀ r g b : ℚ, findClosestPaletteColor r g b [] = ⟨r, g, b⟩) ∧
      (∀ (px : List RGBA) (w h : ℕ) (s : ℚ), applyBayerDithering px w h [] s = px) ∧
      (∀ (px : List RGBA) (w h : ℕ), applyFloydSteinbergDithering px w h [] = px) :=
  ⟨fun _ _ _ => rfl, fun _ _ _ _ => rfl, fun _ _ _ => rfl⟩

/-! ## C8: idempotence of applyPalette -/

/-- C8 counterexample: with the palette [(300,100,0), (255,56,0)] (entries
are the source's duck-typed number arrays; 300 is out of byte range) and the
single byte-valued pixel (255,255,0,255), the first application stores the
clamped (255,100,0), but the second application matches (255,100,0) to
(255,56,0), so applying the palette twice differs from applying it once. -/
theorem claim_C8_counterexample :
    applyPalette (applyPalette [⟨255, 255, 0, 255⟩] [⟨300, 100, 0⟩, ⟨255, 56, 0⟩])
        [⟨300, 100, 0⟩, ⟨255, 56, 0⟩]
      ≠ applyPalette [⟨255, 255, 0, 255⟩] [⟨300, 100, 0⟩, ⟨255, 56, 0⟩] := by
  norm_num [applyPalette, applyPalettePixel, findClosestPaletteColor, fcGo,
    colorDistanceSquared, u8store, Int.floor_eq_iff, List.cons_ne_nil]

/-- C8 amended: applyPalette is idempotent for every pixel buffer of
byte-valued alphas and every non-empty palette whose entries are integer
triples with components in [0,255] (the shape every palette produced by
generatePalette has): after the first application every pixel already equals
a palette entry, and the second application leaves the buffer unchanged. -/
theorem claim_C8_applyPalette_idempotent (pixels : List RGBA)
    (palette : List Color) (hp : palette ≠ [])
    (hpal : ∀ c ∈ palette, ByteColor c)
    (hpx : ∀ px ∈ pixels, IsByteQ px.a) :
    applyPalette (applyPalette pixels palette) palette
      = applyPalette pixels palette := by
  unfold applyPalette
  rw [if_neg hp, if_neg hp, List.map_map]
  refine List.map_congr_left fun px hmem => ?_
  show applyPalettePixel palette (applyPalettePixel palette px) = applyPalettePixel palette px
  by_cases hpa : px.a = 0
  · have hinner : applyPalettePixel palette px = ⟨0, 0, 0, 0⟩ := by
      simp only [applyPalettePixel]
      rw [if_pos hpa]
    rw [hinner]
    have houter : applyPalettePixel palette ⟨0, 0, 0, 0⟩ = (⟨0, 0, 0, 0⟩ : RGBA) := by
      simp only [applyPalettePixel]
      simp
    rw [houter]
  · have hc : findClosestPaletteColor px.r px.g px.b palette ∈ palette :=
      findClosest_mem hp
    obtain ⟨hcr, hcg, hcb⟩ := hpal _ hc
    have hae : u8store px.a = px.a := u8store_of_byte (hpx px hmem)
    set c := findClosestPaletteColor px.r px.g px.b palette with hcdef
    have hinner : applyPalettePixel palette px = ⟨c.r, c.g, c.b, px.a⟩ := by
      simp only [applyPalettePixel, ← hcdef]
      rw [if_neg hpa, u8store_of_byte hcr, u8store_of_byte hcg, u8store_of_byte hcb, hae]
    rw [hinner]
    have hmem2 : (⟨c.r, c.g, c.b⟩ : Color) ∈ palette := by
      have hcc : c = (⟨c.r, c.g, c.b⟩ : Color) := rfl
      rw [← hcc]; exact hc
    have hfix : findClosestPaletteColor c.r c.g c.b palette = ⟨c.r, c.g, c.b⟩ :=
      findClosest_of_probe_mem hp hmem2
    have houter : applyPalettePixel palette ⟨c.r, c.g, c.b, px.a⟩
        = (⟨c.r, c.g, c.b, px.a⟩ : RGBA) := by
      simp only [applyPalettePixel]
      rw [if_neg hpa, hfix]
      show (⟨u8store c.r, u8store c.g, u8store c.b, u8store px.a⟩ : RGBA) = _
      rw [u8store_of_byte hcr, u8store_of_byte hcg, u8store_of_byte hcb, hae]
    rw [houter]

theorem claim_C8_witness :
    ([⟨255, 56, 0⟩] : List Color) ≠ [] ∧
      (∀ c ∈ ([⟨255, 56, 0⟩] : List Color), ByteColor c) ∧
      (∀ px ∈ ([⟨255, 255, 0, 255⟩] : List RGBA), IsByteQ px.a) ∧
      applyPalette (applyPalette [⟨255, 255, 0, 255⟩] [⟨255, 56, 0⟩]) [⟨255, 56, 0⟩]
        = applyPalette [⟨255, 255, 0, 255⟩] [⟨255, 56, 0⟩] := by
  have h1 : ([⟨255, 56, 0⟩] : List Color) ≠ [] := by decide
  have h2 : ∀ c ∈ ([⟨255, 56, 0⟩] : List Color), ByteColor c := by
    intro c hcm
    rw [List.mem_singleton] at hcm
    rw [hcm]
    refine ⟨⟨?_, ?_, ?_⟩, ⟨?_, ?_, ?_⟩, ⟨?_, ?_, ?_⟩⟩ <;> norm_num
  have h3 : ∀ px ∈ ([⟨255, 255, 0, 255⟩] : List RGBA), IsByteQ px.a := by
    intro px hm
    rw [List.mem_singleton] at hm
    rw [hm]
    exact ⟨by norm_num, by norm_num, by norm_num⟩
  exact ⟨h1, h2, h3, claim_C8_applyPalette_idempotent _ _ h1 h2 h3⟩

/-! ## C1: generatePalette always returns exactly numColors colors -/

lemma padWithLast_length (n : ℕ) (p : List Color) (hne : p ≠ []) :
    (padWithLast n p).length = max n p.length := by
  have H : ∀ (k : ℕ) (q : List Color), n - q.length ≤ k → q ≠ [] →
      (padWithLast n q).length = max n q.length := by
    intro k
    induction k with
    | zero =>
      intro q hk hne2
      rw [padWithLast, dif_neg (by intro hc; omega : ¬(q.length < n ∧ q ≠ []))]
      rw [max_eq_right (by omega : n ≤ q.length)]
    | succ k ih =>
      intro q hk hne2
      rw [padWithLast]
      by_cases hc : q.length < n ∧ q ≠ []
      · rw [dif_pos hc]
        have hlen : (q ++ [q.getLast hc.2]).length = q.length + 1 := by simp
        rw [ih (q ++ [q.getLast hc.2]) (by rw [hlen]; omega) (by simp), hlen]
        rw [max_eq_left (by omega : q.length + 1 ≤ n),
          max_eq_left (by omega : q.length ≤ n)]
      · rw [dif_neg hc]
        have hge : ¬(q.length < n) := fun h1 => hc ⟨h1, hne2⟩
        rw [max_eq_right (by omega : n ≤ q.length)]
  exact H (n - p.length) p le_rfl hne

lemma padWithBlack_length (n : ℕ) (p : List Color) :
    (padWithBlack n p).length = max n p.length := by
  have H : ∀ (k : ℕ) (q : List Color), n - q.length ≤ k →
      (padWithBlack n q).length = max n q.length := by
    intro k
    induction k with
    | zero =>
      intro q hk
      rw [padWithBlack, if_neg (by omega : ¬(q.length < n))]
      rw [max_eq_right (by omega : n ≤ q.length)]
    | succ k ih =>
      intro q hk
      rw [padWithBlack]
      by_cases hc : q.length < n
      · rw [if_pos hc]
        have hlen : (q ++ [(⟨0, 0, 0⟩ : Color)]).length = q.length + 1 := by simp
        rw [ih (q ++ [(⟨0, 0, 0⟩ : Color)]) (by rw [hlen]; omega), hlen]
        rw [max_eq_left (by omega : q.length + 1 ≤ n),
          max_eq_left (by omega : q.length ≤ n)]
      · rw [if_neg hc]
        rw [max_eq_right (by omega : n ≤ q.length)]
  exact H (n - p.length) p le_rfl

/-- The three size-normalization passes at the end of generatePalette leave a
list of length exactly numColors, whatever the median cut produced. -/
lemma normalize_length (n : ℕ) (p : List Color) :
    (padWithBlack n (truncateTo n (padWithLast n p))).length = n := by
  by_cases hp : p = []
  · subst hp
    have h1 : padWithLast n [] = [] := by
      rw [padWithLast, dif_neg (by simp)]
    have h2 : truncateTo n ([] : List Color) = [] := by
      rw [truncateTo, if_neg (by simp)]
    rw [h1, h2, padWithBlack_length]
    simp
  · have h1 : (padWithLast n p).length = max n p.length := padWithLast_length n p hp
    set q := padWithLast n p with hq
    have hnq : n ≤ q.length := by rw [h1]; exact le_max_left _ _
    rw [truncateTo]
    by_cases h2 : n < q.length
    · rw [if_pos h2, padWithBlack_length, List.length_take]
      rw [min_eq_left (le_of_lt h2), max_self]
    · rw [if_neg h2, padWithBlack_length]
      rw [le_antisymm (not_lt.mp h2) hnq, max_self]

/-- C1: for every flat RGBA pixel buffer (empty and fully transparent
buffers included) and every requested color count in [1,256], generatePalette
returns a palette of exactly that many colors. -/
theorem claim_C1_generatePalette_length (pixels : List RGBA) (n : ℤ)
    (h1 : 1 ≤ n) (h2 : n ≤ 256) :
    (generatePalette pixels ((n : ℤ) : ℚ)).length = n.toNat := by
  have hfl : ⌊((n : ℤ) : ℚ)⌋ = n := Int.floor_intCast n
  have hclamp : max 1 (min 256 n) = n := by omega
  simp only [generatePalette, hfl, hclamp]
  by_cases hall : collectOpaquePixels pixels = []
  · rw [if_pos hall]
    simp only [fallbackPalette, List.length_map, List.length_range]
  · rw [if_neg hall]
    exact normalize_length n.toNat _

theorem claim_C1_witness :
    (1 ≤ (2 : ℤ)) ∧ ((2 : ℤ) ≤ 256) ∧
      (generatePalette [⟨10, 20, 30, 255⟩] (((2 : ℤ) : ℤ) : ℚ)).length = (2 : ℤ).toNat :=
  ⟨by norm_num, by norm_num,
    claim_C1_generatePalette_length [⟨10, 20, 30, 255⟩] 2 (by norm_num) (by norm_num)⟩

/-! ## C6: split selection realizes the global maximum channel range -/

lemma chRange_zero (b : List Color) :
    chRange b 0 = (bucketRangeData b).maxR - (bucketRangeData b).minR := by
  simp [chRange]

lemma chRange_one (b : List Color) :
    chRange b 1 = (bucketRangeData b).maxG - (bucketRangeData b).minG := by
  norm_num [chRange]

lemma chRange_two (b : List Color) :
    chRange b 2 = (bucketRangeData b).maxB - (bucketRangeData b).minB := by
  norm_num [chRange]

/-- One pass of the three range comparisons: either the accumulator survives
(and, when the bucket is eligible, none of its channel ranges exceeds the
running maximum), or the result records this bucket's index together with a
channel whose range strictly exceeds the running maximum and is maximal
among the bucket's channels, the smallest such channel index winning ties. -/
lemma bucketStep_spec (acc : SplitChoice) (i : ℕ) (b : List Color) :
    (bucketStep acc i b = acc ∧
      (1 < b.length → ∀ d : ℤ, 0 ≤ d → d ≤ 2 → chRange b d ≤ acc.maxRange)) ∨
    (∃ d : ℤ, 0 ≤ d ∧ d ≤ 2 ∧ 1 < b.length ∧
      bucketStep acc i b = ⟨(i : ℤ), chRange b d, d⟩ ∧
      acc.maxRange < chRange b d ∧
      ∀ d' : ℤ, 0 ≤ d' → d' ≤ 2 →
        chRange b d' ≤ chRange b d ∧ (d' < d → chRange b d' < chRange b d)) := by
  by_cases hlen : b.length ≤ 1
  · refine Or.inl ⟨?_, ?_⟩
    · rw [bucketStep, if_pos hlen]
    · intro hgt; exact absurd hgt (by omega)
  · have h0eq := chRange_zero b
    have h1eq := chRange_one b
    have h2eq := chRange_two b
    simp only [bucketStep, if_neg hlen]
    set dR := (bucketRangeData b).maxR - (bucketRangeData b).minR with hdR
    set dG := (bucketRangeData b).maxG - (bucketRangeData b).minG with hdG
    set dB := (bucketRangeData b).maxB - (bucketRangeData b).minB with hdB
    have hblen : 1 < b.length := by omega
    by_cases hc0 : acc.maxRange < dR
    · rw [if_pos hc0]
      by_cases hc1 : (SplitChoice.mk (i : ℤ) dR 0).maxRange < dG
      · rw [if_pos hc1]
        simp only at hc1
        by_cases hc2 : (SplitChoice.mk (i : ℤ) dG 1).maxRange < dB
        · rw [if_pos hc2]
          simp only at hc2
          refine Or.inr ⟨2, by norm_num, le_refl _, hblen, by rw [h2eq], ?_, ?_⟩
          · rw [h2eq]; linarith
          · intro d' hd0 hd2
            have : d' = 0 ∨ d' = 1 ∨ d' = 2 := by omega
            rcases this with rfl | rfl | rfl
            · rw [h0eq, h2eq]; exact ⟨by linarith, fun _ => by linarith⟩
            · rw [h1eq, h2eq]; exact ⟨by linarith, fun _ => by linarith⟩
            · exact ⟨le_refl _, fun hcon => absurd hcon (by omega)⟩
        · rw [if_neg hc2]
          simp only at hc2
          refine Or.inr ⟨1, by norm_num, by norm_num, hblen, by rw [h1eq], ?_, ?_⟩
          · rw [h1eq]; linarith
          · intro d' hd0 hd2
            have : d' = 0 ∨ d' = 1 ∨ d' = 2 := by omega
            rcases this with rfl | rfl | rfl
            · rw [h0eq, h1eq]; exact ⟨by linarith, fun _ => by linarith⟩
            · exact ⟨le_refl _, fun hcon => absurd hcon (by omega)⟩
            · rw [h2eq, h1eq]; exact ⟨by linarith, fun hcon => absurd hcon (by omega)⟩
      · rw [if_neg hc1]
        simp only at hc1
        by_cases hc2 : (SplitChoice.mk (i : ℤ) dR 0).maxRange < dB
        · rw [if_pos hc2]
          simp only at hc2
          refine Or.inr ⟨2, by norm_num, le_refl _, hblen, by rw [h2eq], ?_, ?_⟩
          · rw [h2eq]; linarith
          · intro d' hd0 hd2
            have : d' = 0 ∨ d' = 1 ∨ d' = 2 := by omega
            rcases this with rfl | rfl | rfl
            · rw [h0eq, h2eq]; exact ⟨by linarith, fun _ => by linarith⟩
            · rw [h1eq, h2eq]; exact ⟨by linarith, fun _ => by linarith⟩
            · exact ⟨le_refl _, fun hcon => absurd hcon (by omega)⟩
        · rw [if_neg hc2]
          simp only at hc2
          refine Or.inr ⟨0, le_refl _, by norm_num, hblen, by rw [h0eq], ?_, ?_⟩
          · rw [h0eq]; linarith
          · intro d' hd0 hd2
            have : d' = 0 ∨ d' = 1 ∨ d' = 2 := by omega
            rcases this with rfl | rfl | rfl
            · exact ⟨le_refl _, fun hcon => absurd hcon (by omega)⟩
            · rw [h1eq, h0eq]; exact ⟨by linarith, fun hcon => absurd hcon (by omega)⟩
            · rw [h2eq, h0eq]; exact ⟨by linarith, fun hcon => absurd hcon (by omega)⟩
    · rw [if_neg hc0]
      by_cases hc1 : acc.maxRange < dG
      · rw [if_pos hc1]
        by_cases hc2 : (SplitChoice.mk (i : ℤ) dG 1).maxRange < dB
        · rw [if_pos hc2]
          simp only at hc2
          refine Or.inr ⟨2, by norm_num, le_refl _, hblen, by rw [h2eq], ?_, ?_⟩
          · rw [h2eq]; linarith
          · intro d' hd0 hd2
            have : d' = 0 ∨ d' = 1 ∨ d' = 2 := by omega
            rcases this with rfl | rfl | rfl
            · rw [h0eq, h2eq]; exact ⟨by linarith, fun _ => by linarith⟩
            · rw [h1eq, h2eq]; exact ⟨by linarith, fun _ => by linarith⟩
            · exact ⟨le_refl _, fun hcon => absurd hcon (by omega)⟩
        · rw [if_neg hc2]
          simp only at hc2
          refine Or.inr ⟨1, by norm_num, by norm_num, hblen, by rw [h1eq], ?_, ?_⟩
          · rw [h1eq]; linarith
          · intro d' hd0 hd2
            have : d' = 0 ∨ d' = 1 ∨ d' = 2 := by omega
            rcases this with rfl | rfl | rfl
            · rw [h0eq, h1eq]; exact ⟨by linarith, fun _ => by linarith⟩
            · exact ⟨le_refl _, fun hcon => absurd hcon (by omega)⟩
            · rw [h2eq, h1eq]; exact ⟨by linarith, fun hcon => absurd hcon (by omega)⟩
      · rw [if_neg hc1]
        by_cases hc2 : acc.maxRange < dB
        · rw [if_pos hc2]
          refine Or.inr ⟨2, by norm_num, le_refl _, hblen, by rw [h2eq], ?_, ?_⟩
          · rw [h2eq]; linarith
          · intro d' hd0 hd2
            have : d' = 0 ∨ d' = 1 ∨ d' = 2 := by omega
            rcases this with rfl | rfl | rfl
            · rw [h0eq, h2eq]; exact ⟨by linarith, fun _ => by linarith⟩
            · rw [h1eq, h2eq]; exact ⟨by linarith, fun _ => by linarith⟩
            · exact ⟨le_refl _, fun hcon => absurd hcon (by omega)⟩
        · rw [if_neg hc2]
          refine Or.inl ⟨rfl, ?_⟩
          intro _ d hd0 hd2
          have : d = 0 ∨ d = 1 ∨ d = 2 := by omega
          rcases this with rfl | rfl | rfl
          · rw [h0eq]; linarith
          · rw [h1eq]; linarith
          · rw [h2eq]; linarith

/-- The indexed selection loop computes the lexicographically first argmax:
either the accumulator survives and no eligible (bucket, channel) pair of the
remaining list strictly beats it, or the result records the pair (i + k, d)
whose range strictly exceeds the accumulator's, is maximal over all eligible
pairs, and is strictly above every lexicographically earlier eligible pair. -/
lemma chooseSplitGo_spec :
    ∀ (rest : List (List Color)) (i : ℕ) (acc : SplitChoice),
      (chooseSplitGo acc i rest = acc ∧
        ∀ k (hk : k < rest.length) (d : ℤ), 0 ≤ d → d ≤ 2 →
          1 < (rest.get ⟨k, hk⟩).length →
          chRange (rest.get ⟨k, hk⟩) d ≤ acc.maxRange) ∨
      (∃ k, ∃ hk : k < rest.length, ∃ d : ℤ, 0 ≤ d ∧ d ≤ 2 ∧
        1 < (rest.get ⟨k, hk⟩).length ∧
        chooseSplitGo acc i rest
          = ⟨((i + k : ℕ) : ℤ), chRange (rest.get ⟨k, hk⟩) d, d⟩ ∧
        acc.maxRange < chRange (rest.get ⟨k, hk⟩) d ∧
        ∀ k' (hk' : k' < rest.length) (d' : ℤ), 0 ≤ d' → d' ≤ 2 →
          1 < (rest.get ⟨k', hk'⟩).length →
          chRange (rest.get ⟨k', hk'⟩) d' ≤ chRange (rest.get ⟨k, hk⟩) d ∧
          ((k' < k ∨ (k' = k ∧ d' < d)) →
            chRange (rest.get ⟨k', hk'⟩) d' < chRange (rest.get ⟨k, hk⟩) d)) := by
  intro rest
  induction rest with
  | nil =>
    intro i acc
    exact Or.inl ⟨rfl, fun k hk => absurd hk (by simp)⟩
  | cons b rest ih =>
    intro i acc
    have hstep : chooseSplitGo acc i (b :: rest)
        = chooseSplitGo (bucketStep acc i b) (i + 1) rest := rfl
    rcases bucketStep_spec acc i b with ⟨heq, hnone⟩ | ⟨d0, hd00, hd02, hblen, heq, hgt0, hdmax⟩
    · -- the accumulator survives the head bucket
      rcases ih (i + 1) (bucketStep acc i b) with ⟨heq2, hall⟩ | ⟨k, hk, d, hd0, hd2, hkl, heq2, hgt, hmax⟩
      · -- case A: nothing improves anywhere
        refine Or.inl ⟨by rw [hstep, heq2, heq], ?_⟩
        intro k hk d hd0 hd2 hkl
        match k, hk with
        | 0, _ => exact hnone hkl d hd0 hd2
        | k' + 1, hk =>
          have := hall k' (by simpa using Nat.lt_of_succ_lt_succ hk) d hd0 hd2
            (by simpa using hkl)
          rw [heq] at this
          simpa using this
      · -- case B: the tail delivers the winner
        refine Or.inr ⟨k + 1, by simpa using Nat.succ_lt_succ hk, d, hd0, hd2,
          by simpa using hkl, ?_, ?_, ?_⟩
        · rw [hstep, heq2]
          have harith : i + 1 + k = i + (k + 1) := by omega
          rw [harith]
          simp
        · rw [heq] at hgt
          simpa using hgt
        · intro k' hk' d' hd0' hd2' hkl'
          match k', hk' with
          | 0, _ =>
            have hws : chRange b d' ≤ acc.maxRange := hnone (by simpa using hkl') d' hd0' hd2'
            have : acc.maxRange < chRange ((b :: rest).get ⟨k + 1, by simpa using Nat.succ_lt_succ hk⟩) d := by
              rw [heq] at hgt; simpa using hgt
            constructor
            · exact le_of_lt (lt_of_le_of_lt (by simpa using hws) this)
            · intro _; exact lt_of_le_of_lt (by simpa using hws) this
          | k'' + 1, hk'param =>
            have := hmax k'' (by simpa using Nat.lt_of_succ_lt_succ hk'param) d' hd0' hd2'
              (by simpa using hkl')
            constructor
            · simpa using this.1
            · intro hlex
              have hlex' : k'' < k ∨ (k'' = k ∧ d' < d) := by omega
              simpa using this.2 hlex'
    · -- the head bucket improves the accumulator
      rcases ih (i + 1) (bucketStep acc i b) with ⟨heq2, hall⟩ | ⟨k, hk, d, hd0, hd2, hkl, heq2, hgt, hmax⟩
      · -- case C: the head is the winner
        refine Or.inr ⟨0, by simp, d0, hd00, hd02, by simpa using hblen, ?_, ?_, ?_⟩
        · rw [hstep, heq2, heq]
          simp
        · simpa using hgt0
        · intro k' hk' d' hd0' hd2' hkl'
          match k', hk' with
          | 0, _ =>
            have := hdmax d' hd0' hd2'
            constructor
            · simpa using this.1
            · intro hlex
              have hd'd : d' < d0 := by omega
              simpa using this.2 hd'd
          | k'' + 1, hk'param =>
            have := hall k'' (by simpa using Nat.lt_of_succ_lt_succ hk'param) d' hd0' hd2'
              (by simpa using hkl')
            rw [heq] at this
            simp only at this
            constructor
            · simpa using this
            · intro hlex
              exact absurd hlex (by omega)
      · -- case D: the tail beats even the improved head
        refine Or.inr ⟨k + 1, by simpa using Nat.succ_lt_succ hk, d, hd0, hd2,
          by simpa using hkl, ?_, ?_, ?_⟩
        · rw [hstep, heq2]
          have harith : i + 1 + k = i + (k + 1) := by omega
          rw [harith]
          simp
        · rw [heq] at hgt
          simp only at hgt
          exact lt_trans hgt0 (by simpa using hgt)
        · intro k' hk' d' hd0' hd2' hkl'
          match k', hk' with
          | 0, _ =>
            have h1 : chRange b d' ≤ chRange b d0 := (hdmax d' hd0' hd2').1
            have h2 : chRange b d0 < chRange ((b :: rest).get ⟨k + 1, by simpa using Nat.succ_lt_succ hk⟩) d := by
              rw [heq] at hgt
              simp only at hgt
              simpa using hgt
            constructor
            · exact le_of_lt (lt_of_le_of_lt (by simpa using h1) h2)
            · intro _; exact lt_of_le_of_lt (by simpa using h1) h2
          | k'' + 1, hk'param =>
            have := hmax k'' (by simpa using Nat.lt_of_succ_lt_succ hk'param) d' hd0' hd2'
              (by simpa using hkl')
            constructor
            · simpa using this.1
            · intro hlex
              have hlex' : k'' < k ∨ (k'' = k ∧ d' < d) := by omega
              simpa using this.2 hlex'

lemma getD_eq_get_of_lt (l : List (List Color)) (n : ℕ) (h : n < l.length) :
    l.getD n [] = l.get ⟨n, h⟩ := by
  rw [List.getD_eq_getElem l [] h]
  simp

/-- C6: whenever an iteration of the median-cut loop performs a split, the
chosen bucket and channel realize the global maximum single-channel range
over all buckets with more than one element, ties resolved toward the
earlier bucket index and, within a bucket, toward the earlier channel (R
before G before B); the chosen bucket is replaced in place by the first and
second halves (split at floor(length/2)) of a version of itself sorted
ascending by the chosen channel. -/
theorem claim_C6_medianCut_split (buckets newB : List (List Color))
    (hne : ∀ b ∈ buckets, b ≠ [])
    (hstep : medianCutStep buckets = some newB) :
    ∃ k, ∃ hk : k < buckets.length, ∃ d : ℤ, 0 ≤ d ∧ d ≤ 2 ∧
      1 < (buckets.get ⟨k, hk⟩).length ∧
      (∀ j (hj : j < buckets.length) (d' : ℤ), 0 ≤ d' → d' ≤ 2 →
        1 < (buckets.get ⟨j, hj⟩).length →
        chRange (buckets.get ⟨j, hj⟩) d' ≤ chRange (buckets.get ⟨k, hk⟩) d) ∧
      (∀ j (hj : j < buckets.length) (d' : ℤ), 0 ≤ d' → d' ≤ 2 →
        1 < (buckets.get ⟨j, hj⟩).length →
        chRange (buckets.get ⟨j, hj⟩) d' = chRange (buckets.get ⟨k, hk⟩) d →
        (k < j ∨ (k = j ∧ d ≤ d'))) ∧
      ∃ s : List Color, s.Perm (buckets.get ⟨k, hk⟩) ∧
        s.Sorted (fun a b => chComp a d ≤ chComp b d) ∧
        newB = buckets.take k ++ [s.take (s.length / 2), s.drop (s.length / 2)]
          ++ buckets.drop (k + 1) := by
  rcases chooseSplitGo_spec buckets 0 ⟨-1, -1, -1⟩ with ⟨heq, -⟩ |
    ⟨k, hk, d, hd0, hd2, hkl, heq, -, hmax⟩
  · exfalso
    have hcs : chooseSplit buckets = ⟨-1, -1, -1⟩ := heq
    simp only [medianCutStep, hcs] at hstep
    simp at hstep
  · have hcs : chooseSplit buckets
        = ⟨((k : ℕ) : ℤ), chRange (buckets.get ⟨k, hk⟩) d, d⟩ := by
      have h0 : (0 : ℕ) + k = k := by omega
      rw [chooseSplit]
      rw [heq, h0]
    by_cases hval : chRange (buckets.get ⟨k, hk⟩) d = 0
    · exfalso
      simp only [medianCutStep, hcs] at hstep
      rw [if_pos (Or.inr hval)] at hstep
      simp at hstep
    · simp only [medianCutStep, hcs] at hstep
      rw [if_neg (by
        rintro (hc | hc)
        · omega
        · exact hval hc)] at hstep
      rw [Option.some_inj] at hstep
      refine ⟨k, hk, d, hd0, hd2, hkl, ?_, ?_, ?_⟩
      · intro j hj d' h0 h2 hjl
        exact (hmax j hj d' h0 h2 hjl).1
      · intro j hj d' h0 h2 hjl hrange_eq
        by_contra hcon
        push_neg at hcon
        have hlex : j < k ∨ (j = k ∧ d' < d) := by omega
        exact absurd hrange_eq (ne_of_lt ((hmax j hj d' h0 h2 hjl).2 hlex))
      · -- the replacement by the two sorted halves
        haveI : IsTotal Color (fun a b => chComp a d ≤ chComp b d) :=
          ⟨fun a b => le_total _ _⟩
        haveI : IsTrans Color (fun a b => chComp a d ≤ chComp b d) :=
          ⟨fun a b c h1 h2 => le_trans h1 h2⟩
        set bk := buckets.get ⟨k, hk⟩ with hbk
        set s := List.insertionSort (fun a b => chComp a d ≤ chComp b d) bk with hs
        have hperm : s.Perm bk := List.perm_insertionSort _ _
        have hslen : s.length = bk.length := hperm.length_eq
        refine ⟨s, hperm, List.sorted_insertionSort _ _, ?_⟩
        have htoNat : ((k : ℕ) : ℤ).toNat = k := Int.toNat_natCast k
        rw [← hstep]
        have hgetD : buckets.getD (((k : ℕ) : ℤ)).toNat [] = bk := by
          rw [htoNat]
          exact getD_eq_get_of_lt buckets k hk
        rw [htoNat] at hgetD ⊢
        rw [hgetD]
        rw [← hs]
        refine List.filter_eq_self.mpr ?_
        intro bb hbb
        have hslen2 : 1 < s.length := by omega
        have hpos : 0 < bb.length := by
          rcases List.mem_append.mp hbb with h1 | h2
          · rcases List.mem_append.mp h1 with ht | hmid
            · exact List.length_pos.mpr (hne bb (List.take_subset k buckets ht))
            · rcases List.mem_cons.mp hmid with hbbeq | hmid2
              · rw [hbbeq, List.length_take]; omega
              · rcases List.mem_cons.mp hmid2 with hbbeq | hmid3
                · rw [hbbeq, List.length_drop]; omega
                · exact absurd hmid3 (List.not_mem_nil bb)
          · exact List.length_pos.mpr (hne bb (List.drop_subset (k + 1) buckets h2))
        simpa using hpos

theorem claim_C6_witness :
    (∀ b ∈ ([[⟨0, 0, 0⟩, ⟨10, 0, 0⟩]] : List (List Color)), b ≠ []) ∧
      medianCutStep [[⟨0, 0, 0⟩, ⟨10, 0, 0⟩]] = some [[⟨0, 0, 0⟩], [⟨10, 0, 0⟩]] ∧
      (∃ k, ∃ hk : k < ([[⟨0, 0, 0⟩, ⟨10, 0, 0⟩]] : List (List Color)).length,
        ∃ d : ℤ, 0 ≤ d ∧ d ≤ 2 ∧
        1 < (([[⟨0, 0, 0⟩, ⟨10, 0, 0⟩]] : List (List Color)).get ⟨k, hk⟩).length ∧
        (∀ j (hj : j < ([[⟨0, 0, 0⟩, ⟨10, 0, 0⟩]] : List (List Color)).length) (d' : ℤ),
          0 ≤ d' → d' ≤ 2 →
          1 < (([[⟨0, 0, 0⟩, ⟨10, 0, 0⟩]] : List (List Color)).get ⟨j, hj⟩).length →
          chRange (([[⟨0, 0, 0⟩, ⟨10, 0, 0⟩]] : List (List Color)).get ⟨j, hj⟩) d'
            ≤ chRange (([[⟨0, 0, 0⟩, ⟨10, 0, 0⟩]] : List (List Color)).get ⟨k, hk⟩) d) ∧
        (∀ j (hj : j < ([[⟨0, 0, 0⟩, ⟨10, 0, 0⟩]] : List (List Color)).length) (d' : ℤ),
          0 ≤ d' → d' ≤ 2 →
          1 < (([[⟨0, 0, 0⟩, ⟨10, 0, 0⟩]] : List (List Color)).get ⟨j, hj⟩).length →
          chRange (([[⟨0, 0, 0⟩, ⟨10, 0, 0⟩]] : List (List Color)).get ⟨j, hj⟩) d'
            = chRange (([[⟨0, 0, 0⟩, ⟨10, 0, 0⟩]] : List (List Color)).get ⟨k, hk⟩) d →
          (k < j ∨ (k = j ∧ d ≤ d'))) ∧
        ∃ s : List Color,
          s.Perm (([[⟨0, 0, 0⟩, ⟨10, 0, 0⟩]] : List (List Color)).get ⟨k, hk⟩) ∧
          s.Sorted (fun a b => chComp a d ≤ chComp b d) ∧
          [[⟨0, 0, 0⟩], [⟨10, 0, 0⟩]]
            = ([[⟨0, 0, 0⟩, ⟨10, 0, 0⟩]] : List (List Color)).take k
              ++ [s.take (s.length / 2), s.drop (s.length / 2)]
              ++ ([[⟨0, 0, 0⟩, ⟨10, 0, 0⟩]] : List (List Color)).drop (k + 1)) := by
  have hne : ∀ b ∈ ([[⟨0, 0, 0⟩, ⟨10, 0, 0⟩]] : List (List Color)), b ≠ [] := by decide
  have hstep : medianCutStep [[⟨0, 0, 0⟩, ⟨10, 0, 0⟩]]
      = some [[⟨0, 0, 0⟩], [⟨10, 0, 0⟩]] := by
    norm_num [medianCutStep, chooseSplit, chooseSplitGo, bucketStep, bucketRangeData,
      chComp, List.insertionSort, List.orderedInsert, List.filter]
  exact ⟨hne, hstep, claim_C6_medianCut_split _ _ hne hstep⟩

/-! ## C5: Bayer dense branch: matrix bands and threshold formula -/

lemma buildRow_getD (f : ℕ → ℕ → α) (w y x : ℕ) (dflt : α) (hx : x < w) :
    (buildRow f w y).getD x dflt = f x y := by
  rw [buildRow, List.getD_eq_getElem _ dflt (by simpa using hx)]
  simp

lemma buildGrid_length (f : ℕ → ℕ → α) (w h : ℕ) :
    (buildGrid f w h).length = h * w := by
  induction h with
  | zero => simp [buildGrid]
  | succ h ih =>
    simp only [buildGrid, List.length_append, ih, buildRow, List.length_map,
      List.length_range]
    ring

lemma buildGrid_getD (f : ℕ → ℕ → α) (w h x y : ℕ) (dflt : α)
    (hx : x < w) (hy : y < h) :
    (buildGrid f w h).getD (y * w + x) dflt = f x y := by
  induction h with
  | zero => omega
  | succ h ih =>
    rw [buildGrid]
    by_cases hyh : y < h
    · rw [List.getD_append _ _ _ _ (by
        rw [buildGrid_length]
        calc y * w + x < y * w + w := by omega
          _ = (y + 1) * w := by ring
          _ ≤ h * w := Nat.mul_le_mul_right w (by omega))]
      exact ih hyh
    · have hyeq : y = h := by omega
      subst hyeq
      rw [List.getD_append_right _ _ _ _ (by rw [buildGrid_length]; exact Nat.le_add_right _ _)]
      rw [buildGrid_length]
      have : y * w + x - y * w = x := by omega
      rw [this]
      exact buildRow_getD f w y x dflt hx

/-- C5: with a clamped strength in (0,100], the dense branch of
applyBayerDithering selects the 2x2 matrix when s is at most 33.3, the 4x4
matrix when s is in (33.3, 66.6], and the 8x8 matrix otherwise, and every
pixel with nonzero alpha is matched after the single offset
(matrix[y mod size][x mod size] / size^2 - 0.5) * ((s/100) * size^2 / 2) is
added identically to its R, G and B channels (each clamped into [0,255]). -/
theorem claim_C5_bayer_dense (pixels : List RGBA) (w h : ℕ) (palette : List Color)
    (s : ℚ) (x y : ℕ) (hp : palette ≠ []) (hs0 : 0 < s) (hs1 : s ≤ 100)
    (hlen : pixels.length = w * h) (hx : x < w) (hy : y < h)
    (hpa : (pixels.getD (y * w + x) ⟨0, 0, 0, 0⟩).a ≠ 0) :
    (s ≤ 333/10 →
      (applyBayerDithering pixels w h palette s).getD (y * w + x) ⟨0, 0, 0, 0⟩ =
        (let px := pixels.getD (y * w + x) ⟨0, 0, 0, 0⟩
         let adj : ℚ := ((bayerMatrix2x2.getD (y % 2) []).getD (x % 2) 0 / (2 * 2) - 1/2)
           * ((s / 100) * (2 * 2) / 2)
         let c := findClosestPaletteColor (clamp255 (px.r + adj))
           (clamp255 (px.g + adj)) (clamp255 (px.b + adj)) palette
         ⟨u8store c.r, u8store c.g, u8store c.b, u8store px.a⟩)) ∧
    (333/10 < s → s ≤ 666/10 →
      (applyBayerDithering pixels w h palette s).getD (y * w + x) ⟨0, 0, 0, 0⟩ =
        (let px := pixels.getD (y * w + x) ⟨0, 0, 0, 0⟩
         let adj : ℚ := ((bayerMatrix4x4.getD (y % 4) []).getD (x % 4) 0 / (4 * 4) - 1/2)
           * ((s / 100) * (4 * 4) / 2)
         let c := findClosestPaletteColor (clamp255 (px.r + adj))
           (clamp255 (px.g + adj)) (clamp255 (px.b + adj)) palette
         ⟨u8store c.r, u8store c.g, u8store c.b, u8store px.a⟩)) ∧
    (666/10 < s →
      (applyBayerDithering pixels w h palette s).getD (y * w + x) ⟨0, 0, 0, 0⟩ =
        (let px := pixels.getD (y * w + x) ⟨0, 0, 0, 0⟩
         let adj : ℚ := ((bayerMatrix8x8.getD (y % 8) []).getD (x % 8) 0 / (8 * 8) - 1/2)
           * ((s / 100) * (8 * 8) / 2)
         let c := findClosestPaletteColor (clamp255 (px.r + adj))
           (clamp255 (px.g + adj)) (clamp255 (px.b + adj)) palette
         ⟨u8store c.r, u8store c.g, u8store c.b, u8store px.a⟩)) := by
  have hpixne : pixels ≠ [] := by
    intro hnil
    rw [hnil] at hlen
    simp at hlen
    rcases hlen with hw | hh
    · omega
    · omega
  have hsc : max 0 (min 100 s) = s := by
    rw [min_eq_right hs1, max_eq_right (le_of_lt hs0)]
  have hsne : ¬(s = 0) := fun hc => absurd hc (by linarith)
  refine ⟨?_, ?_, ?_⟩
  · intro hb1
    have hABD : applyBayerDithering pixels w h palette s
        = buildGrid (fun x y =>
            let px := pixels.getD (y * w + x) ⟨0, 0, 0, 0⟩
            if px.a = 0 then (⟨0, 0, 0, 0⟩ : RGBA)
            else
              let bv := (bayerMatrix2x2.getD (y % 2) []).getD (x % 2) 0
              let adj := (bv * (1 / ((2 : ℕ) * (2 : ℕ) : ℚ)) - 1/2)
                * ((s / 100) * (((2 : ℕ) * (2 : ℕ) : ℚ)) / 2)
              let c := findClosestPaletteColor (clamp255 (px.r + adj))
                (clamp255 (px.g + adj)) (clamp255 (px.b + adj)) palette
              ⟨u8store c.r, u8store c.g, u8store c.b, u8store px.a⟩) w h := by
      simp only [applyBayerDithering, if_neg hp, if_neg hpixne, hsc, if_neg hsne,
        if_pos hb1]
    rw [hABD, buildGrid_getD _ _ _ _ _ _ hx hy]
    simp only [if_neg hpa]
    have hadj : ((bayerMatrix2x2.getD (y % 2) []).getD (x % 2) 0
          * (1 / ((2 : ℕ) * (2 : ℕ) : ℚ)) - 1/2)
          * ((s / 100) * (((2 : ℕ) * (2 : ℕ) : ℚ)) / 2)
        = ((bayerMatrix2x2.getD (y % 2) []).getD (x % 2) 0 / (2 * 2) - 1/2)
          * ((s / 100) * (2 * 2) / 2) := by
      push_cast
      ring
    rw [hadj]
  · intro hb1 hb2
    have hnb1 : ¬(s ≤ 333/10) := by linarith
    have hABD : applyBayerDithering pixels w h palette s
        = buildGrid (fun x y =>
            let px := pixels.getD (y * w + x) ⟨0, 0, 0, 0⟩
            if px.a = 0 then (⟨0, 0, 0, 0⟩ : RGBA)
            else
              let bv := (bayerMatrix4x4.getD (y % 4) []).getD (x % 4) 0
              let adj := (bv * (1 / ((4 : ℕ) * (4 : ℕ) : ℚ)) - 1/2)
                * ((s / 100) * (((4 : ℕ) * (4 : ℕ) : ℚ)) / 2)
              let c := findClosestPaletteColor (clamp255 (px.r + adj))
                (clamp255 (px.g + adj)) (clamp255 (px.b + adj)) palette
              ⟨u8store c.r, u8store c.g, u8store c.b, u8store px.a⟩) w h := by
      simp only [applyBayerDithering, if_neg hp, if_neg hpixne, hsc, if_neg hsne,
        if_neg hnb1, if_pos hb2]
    rw [hABD, buildGrid_getD _ _ _ _ _ _ hx hy]
    simp only [if_neg hpa]
    have hadj : ((bayerMatrix4x4.getD (y % 4) []).getD (x % 4) 0
          * (1 / ((4 : ℕ) * (4 : ℕ) : ℚ)) - 1/2)
          * ((s / 100) * (((4 : ℕ) * (4 : ℕ) : ℚ)) / 2)
        = ((bayerMatrix4x4.getD (y % 4) []).getD (x % 4) 0 / (4 * 4) - 1/2)
          * ((s / 100) * (4 * 4) / 2) := by
      push_cast
      ring
    rw [hadj]
  · intro hb1
    have hnb1 : ¬(s ≤ 333/10) := by linarith
    have hnb2 : ¬(s ≤ 666/10) := by linarith
    have hABD : applyBayerDithering pixels w h palette s
        = buildGrid (fun x y =>
            let px := pixels.getD (y * w + x) ⟨0, 0, 0, 0⟩
            if px.a = 0 then (⟨0, 0, 0, 0⟩ : RGBA)
            else
              let bv := (bayerMatrix8x8.getD (y % 8) []).getD (x % 8) 0
              let adj := (bv * (1 / ((8 : ℕ) * (8 : ℕ) : ℚ)) - 1/2)
                * ((s / 100) * (((8 : ℕ) * (8 : ℕ) : ℚ)) / 2)
              let c := findClosestPaletteColor (clamp255 (px.r + adj))
                (clamp255 (px.g + adj)) (clamp255 (px.b + adj)) palette
              ⟨u8store c.r, u8store c.g, u8store c.b, u8store px.a⟩) w h := by
      simp only [applyBayerDithering, if_neg hp, if_neg hpixne, hsc, if_neg hsne,
        if_neg hnb1, if_neg hnb2]
    rw [hABD, buildGrid_getD _ _ _ _ _ _ hx hy]
    simp only [if_neg hpa]
    have hadj : ((bayerMatrix8x8.getD (y % 8) []).getD (x % 8) 0
          * (1 / ((8 : ℕ) * (8 : ℕ) : ℚ)) - 1/2)
          * ((s / 100) * (((8 : ℕ) * (8 : ℕ) : ℚ)) / 2)
        = ((bayerMatrix8x8.getD (y % 8) []).getD (x % 8) 0 / (8 * 8) - 1/2)
          * ((s / 100) * (8 * 8) / 2) := by
      push_cast
      ring
    rw [hadj]

theorem claim_C5_witness :
    (333/10 < (50 : ℚ)) ∧ ((50 : ℚ) ≤ 666/10) ∧
      (applyBayerDithering [⟨100, 100, 100, 255⟩] 1 1 [⟨0, 0, 0⟩] 50).getD
          (0 * 1 + 0) ⟨0, 0, 0, 0⟩ =
        (let px := ([⟨100, 100, 100, 255⟩] : List RGBA).getD (0 * 1 + 0) ⟨0, 0, 0, 0⟩
         let adj : ℚ := ((bayerMatrix4x4.getD (0 % 4) []).getD (0 % 4) 0 / (4 * 4) - 1/2)
           * (((50 : ℚ) / 100) * (4 * 4) / 2)
         let c := findClosestPaletteColor (clamp255 (px.r + adj))
           (clamp255 (px.g + adj)) (clamp255 (px.b + adj)) [⟨0, 0, 0⟩]
         ⟨u8store c.r, u8store c.g, u8store c.b, u8store px.a⟩) := by
  refine ⟨by norm_num, by norm_num, ?_⟩
  have hmain := claim_C5_bayer_dense [⟨100, 100, 100, 255⟩] 1 1 [⟨0, 0, 0⟩] 50 0 0
    (by decide) (by norm_num) (by norm_num) (by norm_num) (by decide) (by decide)
    (by decide)
  exact hmain.2.1 (by norm_num) (by norm_num)

/-! ## C4: Floyd-Steinberg per-pixel step behavior -/

lemma setAt_eval_self (f : ℕ → ℚ) (j : ℕ) (v : ℚ) : setAt f j v j = v := by
  simp [setAt]

lemma setAt_eval_ne (f : ℕ → ℚ) (j : ℕ) (v : ℚ) (k : ℕ) (h : k ≠ j) :
    setAt f j v k = f k := by
  simp [setAt, h]

/-- Evaluating a block of three compound additions pointwise: every index
receives exactly the summands whose target it is. -/
lemma addAt3_eval (f : ℕ → ℚ) (t1 t2 t3 : ℕ) (v1 v2 v3 : ℚ) (j : ℕ) :
    addAt (addAt (addAt f t1 v1) t2 v2) t3 v3 j
      = f j + (if j = t1 then v1 else 0) + (if j = t2 then v2 else 0)
        + (if j = t3 then v3 else 0) := by
  simp only [addAt]
  split_ifs <;> ring

/-- The per-pixel contract of the Floyd-Steinberg loop body at (x, y): for
nonzero scratch alpha the clamped accumulated channels are matched against
the palette, the matched color and the unchanged alpha are written to the
four output cells of the pixel (no other output cell changes), and the
quantization error err = clamped - matched is added to the scratch at
exactly the four neighbors (x+1,y), (x-1,y+1), (x,y+1), (x+1,y+1) with
weights 7/16, 3/16, 5/16, 1/16, each neighbor guarded by its own bounds
check; for zero scratch alpha, four zeros are written and the scratch is
untouched. -/
def FSStepSpec (w h x y : ℕ) (palette : List Color) (st : FSState) : Prop :=
  (st.d ((y * w + x) * 4 + 3) ≠ 0 →
    (let i := (y * w + x) * 4
     let oldR := clamp255 (st.d i)
     let oldG := clamp255 (st.d (i + 1))
     let oldB := clamp255 (st.d (i + 2))
     let c := findClosestPaletteColor oldR oldG oldB palette
     let errR := oldR - c.r
     let errG := oldG - c.g
     let errB := oldB - c.b
     let stp := fsStep w h palette st (x, y)
     (stp.out i = c.r ∧ stp.out (i + 1) = c.g ∧ stp.out (i + 2) = c.b ∧
       stp.out (i + 3) = st.d (i + 3)) ∧
     (∀ j, j ≠ i → j ≠ i + 1 → j ≠ i + 2 → j ≠ i + 3 → stp.out j = st.out j) ∧
     (∀ j, stp.d j = st.d j
       + (if x + 1 < w ∧ j = i + 4 then errR * 7 / 16 else 0)
       + (if x + 1 < w ∧ j = i + 5 then errG * 7 / 16 else 0)
       + (if x + 1 < w ∧ j = i + 6 then errB * 7 / 16 else 0)
       + (if 1 ≤ x ∧ y + 1 < h ∧ j = i + w * 4 - 4 then errR * 3 / 16 else 0)
       + (if 1 ≤ x ∧ y + 1 < h ∧ j = i + w * 4 - 3 then errG * 3 / 16 else 0)
       + (if 1 ≤ x ∧ y + 1 < h ∧ j = i + w * 4 - 2 then errB * 3 / 16 else 0)
       + (if y + 1 < h ∧ j = i + w * 4 then errR * 5 / 16 else 0)
       + (if y + 1 < h ∧ j = i + w * 4 + 1 then errG * 5 / 16 else 0)
       + (if y + 1 < h ∧ j = i + w * 4 + 2 then errB * 5 / 16 else 0)
       + (if x + 1 < w ∧ y + 1 < h ∧ j = i + w * 4 + 4 then errR * 1 / 16 else 0)
       + (if x + 1 < w ∧ y + 1 < h ∧ j = i + w * 4 + 5 then errG * 1 / 16 else 0)
       + (if x + 1 < w ∧ y + 1 < h ∧ j = i + w * 4 + 6 then errB * 1 / 16 else 0)))) ∧
  (st.d ((y * w + x) * 4 + 3) = 0 →
    (let i := (y * w + x) * 4
     let stp := fsStep w h palette st (x, y)
     stp.d = st.d ∧ stp.out i = 0 ∧ stp.out (i + 1) = 0 ∧ stp.out (i + 2) = 0 ∧
       stp.out (i + 3) = 0 ∧
       ∀ j, j ≠ i → j ≠ i + 1 → j ≠ i + 2 → j ≠ i + 3 → stp.out j = st.out j))

/-- C4: the Floyd-Steinberg loop body satisfies its per-pixel contract for
every position, palette of byte colors, and state with a byte-valued alpha
cell. -/
theorem claim_C4_fs_step (w h x y : ℕ) (palette : List Color) (st : FSState)
    (hp : palette ≠ []) (hpal : ∀ c ∈ palette, ByteColor c)
    (ha : IsByteQ (st.d ((y * w + x) * 4 + 3))) :
    FSStepSpec w h x y palette st := by
  constructor
  · intro hna
    have hcmem : findClosestPaletteColor (clamp255 (st.d ((y * w + x) * 4)))
        (clamp255 (st.d ((y * w + x) * 4 + 1)))
        (clamp255 (st.d ((y * w + x) * 4 + 2))) palette ∈ palette :=
      findClosest_mem hp
    obtain ⟨hcr, hcg, hcb⟩ := hpal _ hcmem
    refine ⟨⟨?_, ?_, ?_, ?_⟩, ?_, ?_⟩
    · simp only [fsStep, if_neg hna]
      rw [setAt_eval_ne _ _ _ _ (by omega), setAt_eval_ne _ _ _ _ (by omega),
        setAt_eval_ne _ _ _ _ (by omega), setAt_eval_self]
      exact u8store_of_byte hcr
    · simp only [fsStep, if_neg hna]
      rw [setAt_eval_ne _ _ _ _ (by omega), setAt_eval_ne _ _ _ _ (by omega),
        setAt_eval_self]
      exact u8store_of_byte hcg
    · simp only [fsStep, if_neg hna]
      rw [setAt_eval_ne _ _ _ _ (by omega), setAt_eval_self]
      exact u8store_of_byte hcb
    · simp only [fsStep, if_neg hna]
      rw [setAt_eval_self, jsRound_of_byte ha, u8store_of_byte ha]
    · intro j h1 h2 h3 h4
      simp only [fsStep, if_neg hna]
      rw [setAt_eval_ne _ _ _ _ h4, setAt_eval_ne _ _ _ _ h3,
        setAt_eval_ne _ _ _ _ h2, setAt_eval_ne _ _ _ _ h1]
    · intro j
      simp only [fsStep, if_neg hna]
      by_cases gA : x + 1 < w <;> by_cases gX : 1 ≤ x <;> by_cases gC : y + 1 < h <;>
        simp only [gA, gX, gC, true_and, false_and, and_true, and_false,
          if_true, if_false, add_zero] <;>
        simp only [addAt3_eval] <;> ring
  · intro hz
    simp only [fsStep, if_pos hz]
    refine ⟨by first | rfl | trivial, ?_, ?_, ?_, ?_, ?_⟩
    · rw [setAt_eval_ne _ _ _ _ (by omega), setAt_eval_ne _ _ _ _ (by omega),
        setAt_eval_ne _ _ _ _ (by omega), setAt_eval_self]
    · rw [setAt_eval_ne _ _ _ _ (by omega), setAt_eval_ne _ _ _ _ (by omega),
        setAt_eval_self]
    · rw [setAt_eval_ne _ _ _ _ (by omega), setAt_eval_self]
    · rw [setAt_eval_self]
    · intro j h1 h2 h3 h4
      rw [setAt_eval_ne _ _ _ _ h4, setAt_eval_ne _ _ _ _ h3,
        setAt_eval_ne _ _ _ _ h2, setAt_eval_ne _ _ _ _ h1]

theorem claim_C4_witness :
    (([⟨0, 0, 0⟩] : List Color) ≠ []) ∧
      (∀ c ∈ ([⟨0, 0, 0⟩] : List Color), ByteColor c) ∧
      IsByteQ ((⟨flatten [⟨10, 20, 30, 255⟩], fun _ => 0⟩ : FSState).d
        ((0 * 1 + 0) * 4 + 3)) ∧
      FSStepSpec 1 1 0 0 [⟨0, 0, 0⟩] ⟨flatten [⟨10, 20, 30, 255⟩], fun _ => 0⟩ := by
  have h1 : (([⟨0, 0, 0⟩] : List Color) ≠ []) := by decide
  have h2 : ∀ c ∈ ([⟨0, 0, 0⟩] : List Color), ByteColor c := by
    intro c hc
    rw [List.mem_singleton] at hc
    rw [hc]
    exact ⟨⟨by norm_num, by norm_num, by norm_num⟩,
      ⟨by norm_num, by norm_num, by norm_num⟩,
      ⟨by norm_num, by norm_num, by norm_num⟩⟩
  have h3 : IsByteQ ((⟨flatten [⟨10, 20, 30, 255⟩], fun _ => 0⟩ : FSState).d
      ((0 * 1 + 0) * 4 + 3)) := by
    have hv : (⟨flatten [⟨10, 20, 30, 255⟩], fun _ => 0⟩ : FSState).d
        ((0 * 1 + 0) * 4 + 3) = 255 := rfl
    rw [hv]
    exact ⟨by norm_num, by norm_num, by norm_num⟩
  exact ⟨h1, h2, h3, claim_C4_fs_step 1 1 0 0 _ _ h1 h2 h3⟩

/-! ## C9: alpha pass-through for both dithering operations -/

/-- The loop body writes the output only inside its own pixel's four cells. -/
lemma fsStep_out_frame (w h : ℕ) (pal : List Color) (st : FSState) (x y j : ℕ)
    (h1 : j ≠ (y * w + x) * 4) (h2 : j ≠ (y * w + x) * 4 + 1)
    (h3 : j ≠ (y * w + x) * 4 + 2) (h4 : j ≠ (y * w + x) * 4 + 3) :
    (fsStep w h pal st (x, y)).out j = st.out j := by
  by_cases hz : st.d ((y * w + x) * 4 + 3) = 0
  · simp only [fsStep, if_pos hz]
    rw [setAt_eval_ne _ _ _ _ h4, setAt_eval_ne _ _ _ _ h3,
      setAt_eval_ne _ _ _ _ h2, setAt_eval_ne _ _ _ _ h1]
  · simp only [fsStep, if_neg hz]
    rw [setAt_eval_ne _ _ _ _ h4, setAt_eval_ne _ _ _ _ h3,
      setAt_eval_ne _ _ _ _ h2, setAt_eval_ne _ _ _ _ h1]

lemma addAt_eval_ne (f : ℕ → ℚ) (j : ℕ) (v : ℚ) (k : ℕ) (h : k ≠ j) :
    addAt f j v k = f k := by
  simp [addAt, h]

/-- The loop body never adds error to an alpha cell: every scratch cell with
index 3 mod 4 is untouched. -/
lemma fsStep_d_alpha (w h : ℕ) (pal : List Color) (st : FSState) (x y j : ℕ)
    (hj : j % 4 = 3) :
    (fsStep w h pal st (x, y)).d j = st.d j := by
  by_cases hz : st.d ((y * w + x) * 4 + 3) = 0
  · simp only [fsStep, if_pos hz]
  · simp only [fsStep, if_neg hz]
    by_cases gA : x + 1 < w <;> by_cases gX : 1 ≤ x <;>
      by_cases gC : y + 1 < h <;>
      simp only [gA, gX, gC, if_true, if_false, true_and, and_true, false_and,
        and_false] <;>
      (repeat rw [addAt_eval_ne _ _ _ _ (by omega)]) <;> try rfl

/-- Folding the loop body over cells none of which owns the output index j
leaves the output at j unchanged. -/
lemma foldl_out_frame (w h : ℕ) (pal : List Color) (j : ℕ) :
    ∀ (cells : List (ℕ × ℕ)) (st : FSState),
      (∀ p ∈ cells, ∀ c', c' ≤ 3 → j ≠ (p.2 * w + p.1) * 4 + c') →
      (cells.foldl (fsStep w h pal) st).out j = st.out j := by
  intro cells
  induction cells with
  | nil => intro st _; rfl
  | cons p rest ih =>
    intro st hcells
    obtain ⟨x', y'⟩ := p
    rw [List.foldl_cons, ih _ (fun q hq => hcells q (List.mem_cons.mpr (Or.inr hq)))]
    have hown : ∀ c', c' ≤ 3 → j ≠ (y' * w + x') * 4 + c' := by
      have h0 := hcells (x', y') (List.mem_cons_self _ _)
      simpa using h0
    exact fsStep_out_frame w h pal st x' y' j
      (by have := hown 0 (by omega); omega)
      (by have := hown 1 (by omega); omega)
      (by have := hown 2 (by omega); omega)
      (by have := hown 3 (by omega); omega)

/-- Folding the loop body over any cells leaves every alpha scratch cell
unchanged. -/
lemma foldl_d_alpha (w h : ℕ) (pal : List Color) (j : ℕ) (hj : j % 4 = 3) :
    ∀ (cells : List (ℕ × ℕ)) (st : FSState),
      (cells.foldl (fsStep w h pal) st).d j = st.d j := by
  intro cells
  induction cells with
  | nil => intro st; rfl
  | cons p rest ih =>
    intro st
    obtain ⟨x', y'⟩ := p
    rw [List.foldl_cons, ih, fsStep_d_alpha w h pal st x' y' j hj]

/-- Two distinct grid cells (with in-range x coordinates) own disjoint
four-cell blocks of the flat buffers. -/
lemma cellIndex_ne (w x y x' y' : ℕ) (hx : x < w) (hx' : x' < w)
    (hne : (x, y) ≠ (x', y')) (c c' : ℕ) (hc : c ≤ 3) (hc' : c' ≤ 3) :
    (y * w + x) * 4 + c ≠ (y' * w + x') * 4 + c' := by
  have hflat : y * w + x ≠ y' * w + x' := by
    intro he
    rcases Nat.lt_trichotomy y y' with hlt | heq | hgt
    · have hstep1 : y * w + x < (y + 1) * w := by
        rw [Nat.succ_mul]; omega
      have hstep2 : (y + 1) * w ≤ y' * w := Nat.mul_le_mul_right w (by omega)
      omega
    · apply hne
      subst heq
      have : x = x' := by omega
      rw [this]
    · have hstep1 : y' * w + x' < (y' + 1) * w := by
        rw [Nat.succ_mul]; omega
      have hstep2 : (y' + 1) * w ≤ y * w := Nat.mul_le_mul_right w (by omega)
      omega
  omega

/-- Membership form of a traversal row. -/
lemma mem_buildRow_pairs {w y : ℕ} {p : ℕ × ℕ} :
    p ∈ buildRow (fun a b => (a, b)) w y ↔ ∃ x' : ℕ, x' < w ∧ p = (x', y) := by
  simp only [buildRow, List.mem_map, List.mem_range]
  constructor
  · rintro ⟨x', hx', rfl⟩; exact ⟨x', hx', rfl⟩
  · rintro ⟨x', hx', rfl⟩; exact ⟨x', hx', rfl⟩

lemma mem_buildGrid_pairs {w h : ℕ} {p : ℕ × ℕ}
    (hp : p ∈ buildGrid (fun a b => (a, b)) w h) :
    p.1 < w ∧ p.2 < h := by
  induction h with
  | zero => simp [buildGrid] at hp
  | succ h ih =>
    rw [buildGrid] at hp
    rcases List.mem_append.mp hp with hp1 | hp2
    · have := ih hp1
      exact ⟨this.1, by omega⟩
    · obtain ⟨x', hx', rfl⟩ := mem_buildRow_pairs.mp hp2
      exact ⟨hx', by omega⟩

/-- Splitting the range list at an in-range position. -/
lemma range_split (w x : ℕ) (hx : x < w) :
    List.range w = (List.range w).take x ++ x :: (List.range w).drop (x + 1) := by
  have hxlen : x < (List.range w).length := by simpa using hx
  conv_lhs => rw [← List.take_append_drop x (List.range w)]
  rw [List.drop_eq_getElem_cons hxlen]
  simp

/-- The row-major traversal visits the cell (x, y) exactly once: it splits
as a prefix, the cell, and a suffix of other cells with in-range x. -/
lemma buildGrid_split (w h x y : ℕ) (hx : x < w) (hy : y < h) :
    ∃ l1 l2 : List (ℕ × ℕ),
      buildGrid (fun a b => (a, b)) w h = l1 ++ (x, y) :: l2 ∧
      (∀ p ∈ l2, p.1 < w ∧ p ≠ (x, y)) := by
  induction h with
  | zero => omega
  | succ h ih =>
    rw [buildGrid]
    by_cases hyh : y < h
    · obtain ⟨l1, l2, hdec, hl2⟩ := ih hyh
      refine ⟨l1, l2 ++ buildRow (fun a b => (a, b)) w h, ?_, ?_⟩
      · rw [hdec]
        simp
      · intro p hp
        rcases List.mem_append.mp hp with hp1 | hp2
        · exact hl2 p hp1
        · obtain ⟨x', hx', rfl⟩ := mem_buildRow_pairs.mp hp2
          refine ⟨hx', ?_⟩
          intro hc
          rw [Prod.mk.injEq] at hc
          omega
    · have hyeq : y = h := by omega
      subst hyeq
      have hrow : buildRow (fun a b => (a, b)) w y
          = ((List.range w).take x).map (fun a => (a, y))
            ++ (x, y) :: ((List.range w).drop (x + 1)).map (fun a => (a, y)) := by
        rw [buildRow]
        conv_lhs => rw [range_split w x hx]
        simp
      refine ⟨buildGrid (fun a b => (a, b)) w y
          ++ ((List.range w).take x).map (fun a => (a, y)),
        ((List.range w).drop (x + 1)).map (fun a => (a, y)), ?_, ?_⟩
      · rw [hrow]
        simp
      · intro p hp
        rw [List.mem_map] at hp
        obtain ⟨x', hx'mem, rfl⟩ := hp
        have hx'lt : x' < w := by
          have := List.mem_of_mem_drop hx'mem
          simpa using this
        refine ⟨hx'lt, ?_⟩
        intro hc
        rw [Prod.mk.injEq] at hc
        obtain ⟨hcx, -⟩ := hc
        have hxmem : x ∈ (List.range w).drop (x + 1) := by
          rw [hcx] at hx'mem
          exact hx'mem
        have hnodup : (List.range w).Nodup := List.nodup_range w
        rw [range_split w x hx] at hnodup
        have h2 := (List.nodup_append.mp hnodup).2.1
        rw [List.nodup_cons] at h2
        exact h2.1 hxmem

lemma fsStep_out_self_rgb (w h : ℕ) (pal : List Color) (st : FSState) (x y : ℕ)
    (hna : st.d ((y * w + x) * 4 + 3) ≠ 0) :
    (fsStep w h pal st (x, y)).out ((y * w + x) * 4)
        = u8store (findClosestPaletteColor (clamp255 (st.d ((y * w + x) * 4)))
            (clamp255 (st.d ((y * w + x) * 4 + 1)))
            (clamp255 (st.d ((y * w + x) * 4 + 2))) pal).r ∧
      (fsStep w h pal st (x, y)).out ((y * w + x) * 4 + 1)
        = u8store (findClosestPaletteColor (clamp255 (st.d ((y * w + x) * 4)))
            (clamp255 (st.d ((y * w + x) * 4 + 1)))
            (clamp255 (st.d ((y * w + x) * 4 + 2))) pal).g ∧
      (fsStep w h pal st (x, y)).out ((y * w + x) * 4 + 2)
        = u8store (findClosestPaletteColor (clamp255 (st.d ((y * w + x) * 4)))
            (clamp255 (st.d ((y * w + x) * 4 + 1)))
            (clamp255 (st.d ((y * w + x) * 4 + 2))) pal).b := by
  refine ⟨?_, ?_, ?_⟩
  · simp only [fsStep, if_neg hna]
    rw [setAt_eval_ne _ _ _ _ (by omega), setAt_eval_ne _ _ _ _ (by omega),
      setAt_eval_ne _ _ _ _ (by omega)]
    exact setAt_eval_self _ _ _
  · simp only [fsStep, if_neg hna]
    rw [setAt_eval_ne _ _ _ _ (by omega), setAt_eval_ne _ _ _ _ (by omega)]
    exact setAt_eval_self _ _ _
  · simp only [fsStep, if_neg hna]
    rw [setAt_eval_ne _ _ _ _ (by omega)]
    exact setAt_eval_self _ _ _

lemma flatten_alpha (pixels : List RGBA) (k : ℕ) :
    flatten pixels (4 * k + 3) = (pixels.getD k ⟨0, 0, 0, 0⟩).a := by
  have h1 : (4 * k + 3) / 4 = k := by omega
  have h2 : (4 * k + 3) % 4 = 3 := by omega
  simp [flatten, h1, h2]

/-- After the whole raster scan, the output at any cell of the block owned by
(x, y) is what the loop body wrote there, for a state whose alpha scratch
cell still holds its initial value. -/
lemma fsLoop_out_cell (w h : ℕ) (pal : List Color) (x y : ℕ)
    (hx : x < w) (hy : y < h) (st0 : FSState) (c : ℕ) (hc : c ≤ 3) :
    ∃ st1 : FSState,
      st1.d ((y * w + x) * 4 + 3) = st0.d ((y * w + x) * 4 + 3) ∧
      ((buildGrid (fun a b => (a, b)) w h).foldl (fsStep w h pal) st0).out
          ((y * w + x) * 4 + c)
        = (fsStep w h pal st1 (x, y)).out ((y * w + x) * 4 + c) := by
  obtain ⟨l1, l2, hdec, hl2⟩ := buildGrid_split w h x y hx hy
  refine ⟨l1.foldl (fsStep w h pal) st0, ?_, ?_⟩
  · exact foldl_d_alpha w h pal _ (by omega) l1 st0
  · rw [hdec, List.foldl_append, List.foldl_cons]
    apply foldl_out_frame
    intro p hp c' hc'
    obtain ⟨px', py'⟩ := p
    obtain ⟨hpw, hpne⟩ := hl2 _ hp
    exact cellIndex_ne w x y px' py' hx hpw (Ne.symm hpne) c c' hc hc'

lemma fsStep_out_self_alpha (w h : ℕ) (pal : List Color) (st : FSState) (x y : ℕ) :
    (fsStep w h pal st (x, y)).out ((y * w + x) * 4 + 3)
      = if st.d ((y * w + x) * 4 + 3) = 0 then 0
        else u8store ((jsRound (st.d ((y * w + x) * 4 + 3)) : ℤ) : ℚ) := by
  by_cases hz : st.d ((y * w + x) * 4 + 3) = 0
  · rw [if_pos hz]
    simp only [fsStep, if_pos hz]
    rw [setAt_eval_self]
  · rw [if_neg hz]
    simp only [fsStep, if_neg hz]
    rw [setAt_eval_self]

lemma fsStep_out_self_zero (w h : ℕ) (pal : List Color) (st : FSState) (x y : ℕ)
    (hz : st.d ((y * w + x) * 4 + 3) = 0) (c : ℕ) (hc : c ≤ 3) :
    (fsStep w h pal st (x, y)).out ((y * w + x) * 4 + c) = 0 := by
  simp only [fsStep, if_pos hz]
  have hc4 : c = 0 ∨ c = 1 ∨ c = 2 ∨ c = 3 := by omega
  rcases hc4 with rfl | rfl | rfl | rfl
  · rw [setAt_eval_ne _ _ _ _ (by omega), setAt_eval_ne _ _ _ _ (by omega),
      setAt_eval_ne _ _ _ _ (by omega)]
    exact setAt_eval_self _ _ _
  · rw [setAt_eval_ne _ _ _ _ (by omega), setAt_eval_ne _ _ _ _ (by omega)]
    exact setAt_eval_self _ _ _
  · rw [setAt_eval_ne _ _ _ _ (by omega)]
    exact setAt_eval_self _ _ _
  · exact setAt_eval_self _ _ _

lemma getD_map_pixel (l : List RGBA) (f : RGBA → RGBA) (k : ℕ) (hk : k < l.length)
    (d : RGBA) : (l.map f).getD k d = f (l.getD k d) := by
  rw [List.getD_eq_getElem _ d (by simpa using hk), List.getD_eq_getElem _ d hk]
  simp

lemma buildGrid_getD_linear (f : ℕ → ℕ → α) (w h k : ℕ) (hk : k < w * h) (d : α) :
    (buildGrid f w h).getD k d = f (k % w) (k / w) := by
  have hw : 0 < w := by
    rcases Nat.eq_zero_or_pos w with hw0 | hw0
    · rw [hw0] at hk; omega
    · exact hw0
  have hdm := Nat.div_add_mod k w
  have h1 : (k / w) * w + k % w = k := by
    rw [Nat.mul_comm w (k / w)] at hdm
    exact hdm
  have hy : k / w < h := by
    rw [Nat.div_lt_iff_lt_mul hw]
    rw [Nat.mul_comm h w]
    exact hk
  calc (buildGrid f w h).getD k d
      = (buildGrid f w h).getD ((k / w) * w + k % w) d := by rw [h1]
    _ = f (k % w) (k / w) :=
        buildGrid_getD f w h (k % w) (k / w) d (Nat.mod_lt _ hw) hy

lemma getD_mem_of_lt (l : List RGBA) (k : ℕ) (hk : k < l.length) (d : RGBA) :
    l.getD k d ∈ l := by
  rw [List.getD_eq_getElem _ d hk]
  exact List.getElem_mem hk

/-- C9 counterexample: with an empty palette both dithering functions return
the input buffer unchanged, so a pixel with alpha 0 and nonzero RGB is not
mapped to (0,0,0,0), refuting the claim as stated for every palette. -/
theorem claim_C9_counterexample :
    applyBayerDithering [⟨5, 6, 7, 0⟩] 1 1 [] 50 = [⟨5, 6, 7, 0⟩] ∧
      applyFloydSteinbergDithering [⟨5, 6, 7, 0⟩] 1 1 [] = [⟨5, 6, 7, 0⟩] ∧
      (⟨5, 6, 7, 0⟩ : RGBA) ≠ ⟨0, 0, 0, 0⟩ :=
  ⟨rfl, rfl, by decide⟩

/-- C9 amended: for every non-empty palette and byte-valued buffer of the
grid's size, both dithering operations preserve the alpha channel of every
pixel, and map every pixel with alpha 0 to exactly (0,0,0,0). -/
theorem claim_C9_alpha_passthrough (pixels : List RGBA) (w h : ℕ)
    (palette : List Color) (s : ℚ) (hp : palette ≠ [])
    (hlen : pixels.length = w * h)
    (hbytes : ∀ px ∈ pixels, IsByteQ px.a) (k : ℕ) (hk : k < pixels.length) :
    (((applyBayerDithering pixels w h palette s).getD k ⟨0, 0, 0, 0⟩).a
        = (pixels.getD k ⟨0, 0, 0, 0⟩).a ∧
      ((pixels.getD k ⟨0, 0, 0, 0⟩).a = 0 →
        (applyBayerDithering pixels w h palette s).getD k ⟨0, 0, 0, 0⟩
          = ⟨0, 0, 0, 0⟩)) ∧
    (((applyFloydSteinbergDithering pixels w h palette).getD k ⟨0, 0, 0, 0⟩).a
        = (pixels.getD k ⟨0, 0, 0, 0⟩).a ∧
      ((pixels.getD k ⟨0, 0, 0, 0⟩).a = 0 →
        (applyFloydSteinbergDithering pixels w h palette).getD k ⟨0, 0, 0, 0⟩
          = ⟨0, 0, 0, 0⟩)) := by
  have hpixne : pixels ≠ [] := by
    intro hnil
    rw [hnil] at hk
    simp at hk
  have hba : IsByteQ (pixels.getD k ⟨0, 0, 0, 0⟩).a :=
    hbytes _ (getD_mem_of_lt pixels k hk ⟨0, 0, 0, 0⟩)
  have hw : 0 < w := by
    rcases Nat.eq_zero_or_pos w with hw0 | hw0
    · rw [hw0] at hlen; omega
    · exact hw0
  have hx : k % w < w := Nat.mod_lt _ hw
  have hy : k / w < h := by
    rw [Nat.div_lt_iff_lt_mul hw, Nat.mul_comm h w]
    omega
  have hidx : (k / w) * w + k % w = k := by
    have hdm := Nat.div_add_mod k w
    rw [Nat.mul_comm w (k / w)] at hdm
    exact hdm
  constructor
  · -- Bayer
    simp only [applyBayerDithering, if_neg hp, if_neg hpixne]
    by_cases hs0 : max 0 (min 100 s) = 0
    · rw [if_pos hs0, getD_map_pixel pixels _ k hk]
      by_cases hpa : (pixels.getD k ⟨0, 0, 0, 0⟩).a = 0
      · constructor
        · rw [bayerFlatPixel, if_pos hpa, hpa]
        · intro _
          rw [bayerFlatPixel, if_pos hpa]
      · constructor
        · rw [bayerFlatPixel, if_neg hpa]
          exact u8store_of_byte hba
        · intro hc
          exact absurd hc hpa
    · rw [if_neg hs0, buildGrid_getD_linear _ w h k (by omega) _]
      rw [hidx]
      by_cases hpa : (pixels.getD k ⟨0, 0, 0, 0⟩).a = 0
      · constructor
        · rw [if_pos hpa, hpa]
        · intro _
          rw [if_pos hpa]
      · constructor
        · rw [if_neg hpa]
          exact u8store_of_byte hba
        · intro hc
          exact absurd hc hpa
  · -- Floyd-Steinberg
    simp only [applyFloydSteinbergDithering, if_neg hp, if_neg hpixne]
    have hget : ∀ (c : ℕ),
        ((List.range pixels.length).map (fun k =>
          (⟨((buildGrid (fun a b => (a, b)) w h).foldl (fsStep w h palette)
              ⟨flatten pixels, fun _ => 0⟩).out (4 * k),
            ((buildGrid (fun a b => (a, b)) w h).foldl (fsStep w h palette)
              ⟨flatten pixels, fun _ => 0⟩).out (4 * k + 1),
            ((buildGrid (fun a b => (a, b)) w h).foldl (fsStep w h palette)
              ⟨flatten pixels, fun _ => 0⟩).out (4 * k + 2),
            ((buildGrid (fun a b => (a, b)) w h).foldl (fsStep w h palette)
              ⟨flatten pixels, fun _ => 0⟩).out (4 * k + 3)⟩ : RGBA))).getD k
          ⟨0, 0, 0, 0⟩
        = ⟨((buildGrid (fun a b => (a, b)) w h).foldl (fsStep w h palette)
              ⟨flatten pixels, fun _ => 0⟩).out (4 * k),
            ((buildGrid (fun a b => (a, b)) w h).foldl (fsStep w h palette)
              ⟨flatten pixels, fun _ => 0⟩).out (4 * k + 1),
            ((buildGrid (fun a b => (a, b)) w h).foldl (fsStep w h palette)
              ⟨flatten pixels, fun _ => 0⟩).out (4 * k + 2),
            ((buildGrid (fun a b => (a, b)) w h).foldl (fsStep w h palette)
              ⟨flatten pixels, fun _ => 0⟩).out (4 * k + 3)⟩ := by
      intro c
      rw [List.getD_eq_getElem _ _ (by simpa using hk)]
      simp
    rw [hget 0]
    have halpha0 : (⟨flatten pixels, fun _ => 0⟩ : FSState).d
        (((k / w) * w + k % w) * 4 + 3) = (pixels.getD k ⟨0, 0, 0, 0⟩).a := by
      show flatten pixels (((k / w) * w + k % w) * 4 + 3) = _
      rw [show ((k / w) * w + k % w) * 4 + 3 = 4 * k + 3 from by omega]
      exact flatten_alpha pixels k
    have hchan : ∀ (c : ℕ), c ≤ 3 → ∃ st1 : FSState,
        st1.d (((k / w) * w + k % w) * 4 + 3) = (pixels.getD k ⟨0, 0, 0, 0⟩).a ∧
        ((buildGrid (fun a b => (a, b)) w h).foldl (fsStep w h palette)
            ⟨flatten pixels, fun _ => 0⟩).out (4 * k + c)
          = (fsStep w h palette st1 (k % w, k / w)).out
              (((k / w) * w + k % w) * 4 + c) := by
      intro c hc
      obtain ⟨st1, h1, h2⟩ := fsLoop_out_cell w h palette (k % w) (k / w) hx hy
        ⟨flatten pixels, fun _ => 0⟩ c hc
      refine ⟨st1, by rw [h1]; exact halpha0, ?_⟩
      rw [show 4 * k + c = ((k / w) * w + k % w) * 4 + c from by omega]
      exact h2
    by_cases hpa : (pixels.getD k ⟨0, 0, 0, 0⟩).a = 0
    · have hquad : ∀ (c : ℕ), c ≤ 3 →
          ((buildGrid (fun a b => (a, b)) w h).foldl (fsStep w h palette)
            ⟨flatten pixels, fun _ => 0⟩).out (4 * k + c) = 0 := by
        intro c hc
        obtain ⟨st1, h1, h2⟩ := hchan c hc
        rw [h2]
        exact fsStep_out_self_zero w h palette st1 (k % w) (k / w)
          (by rw [h1]; exact hpa) c hc
      constructor
      · have h3 := hquad 3 (by omega)
        simp only [h3, hpa]
      · intro _
        have h0 := hquad 0 (by omega)
        have h1 := hquad 1 (by omega)
        have h2 := hquad 2 (by omega)
        have h3 := hquad 3 (by omega)
        rw [show (4 * k : ℕ) = 4 * k + 0 from by omega] at h0
        simp only [h0, h1, h2, h3]
        rw [show (4 * k + 0 : ℕ) = 4 * k from by omega] at h0
        simp [h0, h1, h2, h3]
    · constructor
      · obtain ⟨st1, h1, h2⟩ := hchan 3 (by omega)
        simp only [h2]
        rw [fsStep_out_self_alpha]
        rw [h1, if_neg hpa, jsRound_of_byte hba, u8store_of_byte hba]
      · intro hc
        exact absurd hc hpa

theorem claim_C9_witness :
    (([⟨0, 0, 0⟩] : List Color) ≠ []) ∧
      ([⟨10, 20, 30, 255⟩] : List RGBA).length = 1 * 1 ∧
      (∀ px ∈ ([⟨10, 20, 30, 255⟩] : List RGBA), IsByteQ px.a) ∧
      0 < ([⟨10, 20, 30, 255⟩] : List RGBA).length ∧
      ((((applyBayerDithering [⟨10, 20, 30, 255⟩] 1 1 [⟨0, 0, 0⟩] 50).getD 0
            ⟨0, 0, 0, 0⟩).a
          = (([⟨10, 20, 30, 255⟩] : List RGBA).getD 0 ⟨0, 0, 0, 0⟩).a ∧
        ((([⟨10, 20, 30, 255⟩] : List RGBA).getD 0 ⟨0, 0, 0, 0⟩).a = 0 →
          (applyBayerDithering [⟨10, 20, 30, 255⟩] 1 1 [⟨0, 0, 0⟩] 50).getD 0
            ⟨0, 0, 0, 0⟩ = ⟨0, 0, 0, 0⟩)) ∧
      (((applyFloydSteinbergDithering [⟨10, 20, 30, 255⟩] 1 1 [⟨0, 0, 0⟩]).getD 0
            ⟨0, 0, 0, 0⟩).a
          = (([⟨10, 20, 30, 255⟩] : List RGBA).getD 0 ⟨0, 0, 0, 0⟩).a ∧
        ((([⟨10, 20, 30, 255⟩] : List RGBA).getD 0 ⟨0, 0, 0, 0⟩).a = 0 →
          (applyFloydSteinbergDithering [⟨10, 20, 30, 255⟩] 1 1 [⟨0, 0, 0⟩]).getD 0
            ⟨0, 0, 0, 0⟩ = ⟨0, 0, 0, 0⟩))) := by
  have h1 : (([⟨0, 0, 0⟩] : List Color) ≠ []) := by decide
  have h2 : ([⟨10, 20, 30, 255⟩] : List RGBA).length = 1 * 1 := by norm_num
  have h3 : ∀ px ∈ ([⟨10, 20, 30, 255⟩] : List RGBA), IsByteQ px.a := by
    intro px hm
    rw [List.mem_singleton] at hm
    rw [hm]
    exact ⟨by norm_num, by norm_num, by norm_num⟩
  have h4 : (0 : ℕ) < ([⟨10, 20, 30, 255⟩] : List RGBA).length := by norm_num
  exact ⟨h1, h2, h3, h4,
    claim_C9_alpha_passthrough [⟨10, 20, 30, 255⟩] 1 1 [⟨0, 0, 0⟩] 50 h1 h2 h3 0 h4⟩

/-! ## C10: semi-transparent pixels are excluded from palette generation but
quantized like opaque pixels by the apply functions -/

/-- The RGB part of a pixel, for comparing outputs channel-wise. -/
def rgbOf (q : RGBA) : Color := ⟨q.r, q.g, q.b⟩

/-- C10: a pixel with alpha in [1,128] contributes no candidate color to
generatePalette's collection (only alpha strictly above 128 contributes),
yet applyPalette, applyBayerDithering and applyFloydSteinbergDithering all
quantize it exactly like its fully opaque twin, merely passing its alpha
through: semi-transparent pixels are recolored by a palette that never saw
them. -/
theorem claim_C10_semi_transparent_asymmetry (px : RGBA) (palette : List Color)
    (s : ℚ) (hp : palette ≠ []) (h1 : 1 ≤ px.a) (h2 : px.a ≤ 128)
    (hbyte : IsByteQ px.a) :
    collectOpaquePixels [px] = [] ∧
      (∀ q : RGBA, 128 < q.a ↔ collectOpaquePixels [q] ≠ []) ∧
      ((applyPalette [px] palette).map rgbOf
          = (applyPalette [⟨px.r, px.g, px.b, 255⟩] palette).map rgbOf ∧
        (applyPalette [px] palette).map (fun q => q.a) = [px.a]) ∧
      ((applyBayerDithering [px] 1 1 palette s).map rgbOf
          = (applyBayerDithering [⟨px.r, px.g, px.b, 255⟩] 1 1 palette s).map rgbOf ∧
        (applyBayerDithering [px] 1 1 palette s).map (fun q => q.a) = [px.a]) ∧
      ((applyFloydSteinbergDithering [px] 1 1 palette).map rgbOf
          = (applyFloydSteinbergDithering [⟨px.r, px.g, px.b, 255⟩] 1 1 palette).map rgbOf ∧
        (applyFloydSteinbergDithering [px] 1 1 palette).map (fun q => q.a) = [px.a]) := by
  have hano : ¬(128 < px.a) := not_lt.mpr h2
  have hane : px.a ≠ 0 := by
    intro hc
    rw [hc] at h1
    norm_num at h1
  have hfne : ((255 : ℚ)) ≠ 0 := by norm_num
  have hae : u8store px.a = px.a := u8store_of_byte hbyte
  refine ⟨?_, ?_, ?_, ?_, ?_⟩
  · simp [collectOpaquePixels, List.filter, hano]
  · intro q
    by_cases hq : 128 < q.a
    · simp [collectOpaquePixels, List.filter, hq]
    · simp [collectOpaquePixels, List.filter, hq]
  · constructor
    · rw [applyPalette, if_neg hp, applyPalette, if_neg hp]
      simp only [List.map_map, List.map_cons, List.map_nil, Function.comp]
      rw [applyPalettePixel, if_neg hane, applyPalettePixel, if_neg hfne]
      rfl
    · rw [applyPalette, if_neg hp]
      simp only [List.map_map, List.map_cons, List.map_nil, Function.comp]
      rw [applyPalettePixel, if_neg hane]
      simp only [hae]
  · have hne1 : ([px] : List RGBA) ≠ [] := by simp
    have hne2 : ([⟨px.r, px.g, px.b, 255⟩] : List RGBA) ≠ [] := by simp
    rw [applyBayerDithering, if_neg hp, if_neg hne1,
      applyBayerDithering, if_neg hp, if_neg hne2]
    have hb1 : ∀ (g : ℕ → ℕ → RGBA), buildGrid g 1 1 = [g 0 0] := fun g => rfl
    have hg1 : List.getD ([px] : List RGBA) (0 * 1 + 0) ⟨0, 0, 0, 0⟩ = px := rfl
    have hg2 : List.getD ([⟨px.r, px.g, px.b, 255⟩] : List RGBA) (0 * 1 + 0)
        ⟨0, 0, 0, 0⟩ = ⟨px.r, px.g, px.b, 255⟩ := rfl
    by_cases hs0 : max 0 (min 100 s) = 0
    · rw [if_pos hs0, if_pos hs0]
      constructor
      · simp only [List.map_map, List.map_cons, List.map_nil, Function.comp]
        rw [bayerFlatPixel, if_neg hane, bayerFlatPixel, if_neg hfne]
        rfl
      · simp only [List.map_map, List.map_cons, List.map_nil, Function.comp]
        rw [bayerFlatPixel, if_neg hane]
        simp only [hae]
    · rw [if_neg hs0, if_neg hs0, hb1, hb1]
      constructor
      · simp only [List.map_cons, List.map_nil, hg1, hg2, if_neg hane, if_neg hfne]
        rfl
      · simp only [List.map_cons, List.map_nil, hg1, if_neg hane]
        simp only [hae]
  · have hne1 : ([px] : List RGBA) ≠ [] := by simp
    have hne2 : ([⟨px.r, px.g, px.b, 255⟩] : List RGBA) ≠ [] := by simp
    have hgrid : buildGrid (fun a b => (a, b)) 1 1 = [(0, 0)] := rfl
    have hna1 : (⟨flatten [px], fun _ => 0⟩ : FSState).d ((0 * 1 + 0) * 4 + 3) ≠ 0 := by
      show px.a ≠ 0
      exact hane
    have hna2 : (⟨flatten [⟨px.r, px.g, px.b, 255⟩], fun _ => 0⟩ : FSState).d
        ((0 * 1 + 0) * 4 + 3) ≠ 0 := by
      show (255 : ℚ) ≠ 0
      exact hfne
    have hfs1 : applyFloydSteinbergDithering [px] 1 1 palette
        = [⟨u8store (findClosestPaletteColor (clamp255 px.r) (clamp255 px.g)
              (clamp255 px.b) palette).r,
            u8store (findClosestPaletteColor (clamp255 px.r) (clamp255 px.g)
              (clamp255 px.b) palette).g,
            u8store (findClosestPaletteColor (clamp255 px.r) (clamp255 px.g)
              (clamp255 px.b) palette).b,
            u8store ((jsRound px.a : ℤ) : ℚ)⟩] := by
      rw [applyFloydSteinbergDithering, if_neg hp, if_neg hne1]
      rw [hgrid]
      simp only [List.foldl_cons, List.foldl_nil]
      have hr1 : List.range ([px] : List RGBA).length = [0] := rfl
      rw [hr1]
      simp only [List.map_cons, List.map_nil]
      congr 1
      show (⟨(fsStep 1 1 palette ⟨flatten [px], fun _ => 0⟩ (0, 0)).out ((0 * 1 + 0) * 4),
             (fsStep 1 1 palette ⟨flatten [px], fun _ => 0⟩ (0, 0)).out ((0 * 1 + 0) * 4 + 1),
             (fsStep 1 1 palette ⟨flatten [px], fun _ => 0⟩ (0, 0)).out ((0 * 1 + 0) * 4 + 2),
             (fsStep 1 1 palette ⟨flatten [px], fun _ => 0⟩ (0, 0)).out ((0 * 1 + 0) * 4 + 3)⟩
            : RGBA) = _
      obtain ⟨e0, e1, e2⟩ := fsStep_out_self_rgb 1 1 palette _ 0 0 hna1
      rw [e0, e1, e2, fsStep_out_self_alpha, if_neg hna1]
      rfl
    have hfs2 : applyFloydSteinbergDithering [⟨px.r, px.g, px.b, 255⟩] 1 1 palette
        = [⟨u8store (findClosestPaletteColor (clamp255 px.r) (clamp255 px.g)
              (clamp255 px.b) palette).r,
            u8store (findClosestPaletteColor (clamp255 px.r) (clamp255 px.g)
              (clamp255 px.b) palette).g,
            u8store (findClosestPaletteColor (clamp255 px.r) (clamp255 px.g)
              (clamp255 px.b) palette).b,
            u8store ((jsRound (255 : ℚ) : ℤ) : ℚ)⟩] := by
      rw [applyFloydSteinbergDithering, if_neg hp, if_neg hne2]
      rw [hgrid]
      simp only [List.foldl_cons, List.foldl_nil]
      have hr2 : List.range ([⟨px.r, px.g, px.b, 255⟩] : List RGBA).length = [0] := rfl
      rw [hr2]
      simp only [List.map_cons, List.map_nil]
      all_goals congr 1
      all_goals show (⟨(fsStep 1 1 palette ⟨flatten [⟨px.r, px.g, px.b, 255⟩], fun _ => 0⟩ (0, 0)).out
              ((0 * 1 + 0) * 4),
             (fsStep 1 1 palette ⟨flatten [⟨px.r, px.g, px.b, 255⟩], fun _ => 0⟩ (0, 0)).out
              ((0 * 1 + 0) * 4 + 1),
             (fsStep 1 1 palette ⟨flatten [⟨px.r, px.g, px.b, 255⟩], fun _ => 0⟩ (0, 0)).out
              ((0 * 1 + 0) * 4 + 2),
             (fsStep 1 1 palette ⟨flatten [⟨px.r, px.g, px.b, 255⟩], fun _ => 0⟩ (0, 0)).out
              ((0 * 1 + 0) * 4 + 3)⟩
            : RGBA) = _
      all_goals obtain ⟨e0, e1, e2⟩ := fsStep_out_self_rgb 1 1 palette _ 0 0 hna2
      all_goals rw [e0, e1, e2, fsStep_out_self_alpha, if_neg hna2]
      all_goals rfl
    rw [hfs1, hfs2]
    constructor
    · rfl
    · simp only [List.map_cons, List.map_nil]
      rw [jsRound_of_byte hbyte, hae]

theorem claim_C10_witness :
    (([⟨0, 0, 0⟩] : List Color) ≠ []) ∧
      (1 : ℚ) ≤ (⟨10, 20, 30, 100⟩ : RGBA).a ∧
      (⟨10, 20, 30, 100⟩ : RGBA).a ≤ 128 ∧
      IsByteQ (⟨10, 20, 30, 100⟩ : RGBA).a ∧
      (collectOpaquePixels [⟨10, 20, 30, 100⟩] = [] ∧
        (∀ q : RGBA, 128 < q.a ↔ collectOpaquePixels [q] ≠ []) ∧
        ((applyPalette [⟨10, 20, 30, 100⟩] [⟨0, 0, 0⟩]).map rgbOf
            = (applyPalette [⟨(⟨10, 20, 30, 100⟩ : RGBA).r, (⟨10, 20, 30, 100⟩ : RGBA).g,
                (⟨10, 20, 30, 100⟩ : RGBA).b, 255⟩] [⟨0, 0, 0⟩]).map rgbOf ∧
          (applyPalette [⟨10, 20, 30, 100⟩] [⟨0, 0, 0⟩]).map (fun q => q.a)
            = [(⟨10, 20, 30, 100⟩ : RGBA).a]) ∧
        ((applyBayerDithering [⟨10, 20, 30, 100⟩] 1 1 [⟨0, 0, 0⟩] 50).map rgbOf
            = (applyBayerDithering [⟨(⟨10, 20, 30, 100⟩ : RGBA).r, (⟨10, 20, 30, 100⟩ : RGBA).g,
                (⟨10, 20, 30, 100⟩ : RGBA).b, 255⟩] 1 1 [⟨0, 0, 0⟩] 50).map rgbOf ∧
          (applyBayerDithering [⟨10, 20, 30, 100⟩] 1 1 [⟨0, 0, 0⟩] 50).map (fun q => q.a)
            = [(⟨10, 20, 30, 100⟩ : RGBA).a]) ∧
        ((applyFloydSteinbergDithering [⟨10, 20, 30, 100⟩] 1 1 [⟨0, 0, 0⟩]).map rgbOf
            = (applyFloydSteinbergDithering [⟨(⟨10, 20, 30, 100⟩ : RGBA).r,
                (⟨10, 20, 30, 100⟩ : RGBA).g, (⟨10, 20, 30, 100⟩ : RGBA).b, 255⟩]
                1 1 [⟨0, 0, 0⟩]).map rgbOf ∧
          (applyFloydSteinbergDithering [⟨10, 20, 30, 100⟩] 1 1 [⟨0, 0, 0⟩]).map
              (fun q => q.a)
            = [(⟨10, 20, 30, 100⟩ : RGBA).a])) := by
  have h1 : (([⟨0, 0, 0⟩] : List Color) ≠ []) := by decide
  have h2 : (1 : ℚ) ≤ (⟨10, 20, 30, 100⟩ : RGBA).a := by norm_num
  have h3 : (⟨10, 20, 30, 100⟩ : RGBA).a ≤ 128 := by norm_num
  have h4 : IsByteQ (⟨10, 20, 30, 100⟩ : RGBA).a :=
    ⟨by norm_num, by norm_num, by norm_num⟩
  exact ⟨h1, h2, h3, h4,
    claim_C10_semi_transparent_asymmetry ⟨10, 20, 30, 100⟩ [⟨0, 0, 0⟩] 50 h1 h2 h3 h4⟩

end PixelArt
